import Mathlib

set_option maxRecDepth 10000
set_option maxHeartbeats 2000000

attribute [local semireducible] Rat.add Rat.mul Rat.inv Rat.sub Rat.ofScientific

/-!
Shallow embedding of the milesplit meet-results format-detection and
extraction core:

  * `src/get_milesplit_formatted_meet_results.py` (namespace `MeetResults`)
  * `src/detect_adam.py`                          (namespace `DetectAdam`)

HTML pages are modelled as parsed DOM trees (`Node`); BeautifulSoup's parse
step is the boundary of the embedding, so every claim quantifying over
"input strings"/"pages" is stated over parsed documents.  Python `re`
patterns are transcribed constructor-by-constructor into a small regex AST
(`RE`) whose fuelled matcher implements the leftmost, priority-ordered
backtracking semantics of CPython's `re` module for exactly the constructs
these patterns use (ordered alternation, greedy/lazy repetition, optional
groups, anchors, word boundaries, a lookahead).  Floating-point detector
scores appear at two levels of precision.  The per-detector range facts
(`detect_*` / `detect_*_raw`) use exact rationals: every summand is the
rational value of a short decimal literal, so statements such as "the
unclamped sum exceeds 1" or "the score is 0" are exact statements about
the signal weights.  The dispatcher, however, compares the scores *against
each other* and against the `0.70` literal, and there IEEE-754 binary64
rounding is observable (e.g. `0.7 + 0.2` evaluates to the double below
`0.9` while `0.3 + 0.5 + 0.1` evaluates to the double nearest `0.9`, so
the two are not equal as the program computes them although their exact
sums coincide).  The dispatcher model therefore uses bit-faithful binary64
scores: `fl` is round-to-nearest, ties-to-even, at 53 bits of precision —
exactly the binary64 rounding for the normal range, which comfortably
contains every value these detectors produce (all lie in `[0, 1.25]` and
no underflow or overflow can occur) — and `detect_*_f` re-runs each
detector's accumulation with every addition, multiplication and literal
rounded through `fl`, so score-to-score and score-to-threshold comparisons
in the dispatcher are the program's own double comparisons.  Each `fl`
output is an exactly representable rational, so rational `=`, `<`, `≤` on
these values coincide with the IEEE comparisons.
-/

namespace MeetResults

/-! ### Python character classes (over the ASCII text this program handles) -/

/-- `[A-Za-z]`. -/
def alphaChar (c : Char) : Bool :=
  (65 ≤ c.toNat && c.toNat ≤ 90) || (97 ≤ c.toNat && c.toNat ≤ 122)

/-- Python `\s` (ASCII range): space, tab, newline, CR, vertical tab, form feed. -/
def pySpace (c : Char) : Bool :=
  [' ', '\t', '\n', '\r', '\x0b', '\x0c'].contains c

/-- Python `\w` (ASCII range). -/
def wordChar (c : Char) : Bool := alphaChar c || c.isDigit || c == '_'

/-! ### String helpers mirroring the Python text utilities -/

/-- `str.strip()` on the characters of a string. -/
def pyStripChars (cs : List Char) : List Char :=
  ((cs.dropWhile pySpace).reverse.dropWhile pySpace).reverse

/-- `str.strip()`. -/
def pyStrip (s : String) : String := String.mk (pyStripChars s.toList)

/-- Split a character list at every character satisfying `p` (the pieces
between separators, like Python `re.split` on single characters). -/
def splitCharsOn (p : Char → Bool) (cs : List Char) : List (List Char) :=
  cs.foldr
    (fun c acc =>
      if p c then [] :: acc
      else
        match acc with
        | [] => [[c]]
        | w :: ws => (c :: w) :: ws)
    [[]]

/-- Join strings with a separator. -/
def joinSep (sep : String) : List String → String
  | [] => ""
  | [s] => s
  | s :: rest => s ++ sep ++ joinSep sep rest

/-- `str.lower()` over the ASCII text this program handles. -/
def lowerStr (s : String) : String := String.mk (s.toList.map Char.toLower)

/-- `_normalize_whitespace`: `re.sub(r"\s+", " ", text).strip()`, i.e. the
whitespace-separated words of the text joined by single spaces. -/
def normalizeWs (s : String) : String :=
  joinSep " " (((splitCharsOn pySpace s.toList).map String.mk).filter (· ≠ ""))

/-- `str.splitlines()` for newline-separated text (the only line separator
occurring in the modelled documents): split on `"\n"`, a trailing newline
not producing a trailing empty line. -/
def pySplitlines (s : String) : List String :=
  let ps := (splitCharsOn (· == '\n') s.toList).map String.mk
  if ps.getLast? = some "" then ps.dropLast else ps

/-- `re.match(r"^\d+$", s)` as a Boolean: nonempty and all digits.  (`$` can
also match before a trailing newline, but every call site strips the string
first, so that case cannot arise.) -/
def isDigitString (s : String) : Bool :=
  !s.toList.isEmpty && s.toList.all Char.isDigit

/-- `re.match(r"^\d+", s)` as a Boolean: the string starts with a digit. -/
def startsWithDigit (s : String) : Bool :=
  match s.toList with
  | c :: _ => c.isDigit
  | [] => false

/-- `int(s)` on a digit string (total here because every call site has
already regex-checked the string to be digits). -/
def pyInt (s : String) : Nat :=
  s.toList.foldl (fun n c => n * 10 + (c.toNat - 48)) 0

/-- Python's `needle in haystack` substring test. -/
def substrOf (needle haystack : String) : Bool :=
  decide (List.IsInfix needle.toList haystack.toList)

/-- Count how many entries of the (duplicate-free) list `req` occur in
`toks`: the size of the set intersection `set(req) & set(toks)`. -/
def interCount (req toks : List String) : Nat :=
  (req.filter (toks.contains ·)).length

/-- Insert into a duplicate-free list modelling a Python `set.add`. -/
def setInsert (x : String) (s : List String) : List String :=
  if s.contains x then s else s ++ [x]

/-- `min` on the rationals by an executable comparison (the lattice `min`
of Mathlib is proved equal to this below). -/
def ratMin (a b : ℚ) : ℚ := if a ≤ b then a else b

/-- `max` on the rationals by an executable comparison. -/
def ratMax (a b : ℚ) : ℚ := if a ≤ b then b else a

/-! ### IEEE-754 binary64 rounding

The scores the dispatcher compares are CPython floats.  `fl` below rounds
an exact rational to the nearest binary64 value (ties to even) for the
normal range; every float arising in these detectors lies in `[0, 1.25]`,
far inside it.  A float operation on exactly-represented operands is the
correctly rounded exact operation, so `fadd`/`fmul` below are bit-faithful
models of the program's `+` and `*`, and `flit` of its decimal literals. -/

/-- `⌊log₂ n⌋` for `n ≥ 1`, by fuelled structural recursion (`0` for
`n ≤ 1`; the fuel covers all numerators and denominators arising here). -/
def natLog2Go : Nat → Nat → Nat
  | 0, _ => 0
  | fuel + 1, n => if n ≥ 2 then natLog2Go fuel (n / 2) + 1 else 0

def natLog2 (n : Nat) : Nat := natLog2Go 4096 n

/-- `2^e` as an exact rational, for an integer exponent. -/
def pow2Z : Int → ℚ
  | .ofNat k => mkRat (2 ^ k) 1
  | .negSucc k => mkRat 1 (2 ^ (k + 1))

/-- The binade of a positive rational: the unique `e` with
`2^e ≤ q < 2^(e+1)`.  From `2^a ≤ num < 2^(a+1)` and `2^b ≤ den < 2^(b+1)`
the candidate `a - b` is off by at most one, fixed by a single test. -/
def flExp (q : ℚ) : Int :=
  let a : Int := natLog2 q.num.toNat
  let b : Int := natLog2 q.den
  if pow2Z (a - b) ≤ q then a - b else a - b - 1

/-- Round a rational to the nearest binary64 value (round-to-nearest,
ties-to-even, 53-bit significand; correct for the normal range, which
contains every value this development feeds it).  Nonpositive inputs map
to `0` — the program's scores are sums and products of nonnegative
doubles, so `0` is the only nonpositive value that occurs, and it is
exact. -/
def fl (q : ℚ) : ℚ :=
  if q ≤ 0 then 0
  else
    let e := flExp q
    let scaled := q * pow2Z (52 - e)
    let n := scaled.num.toNat / scaled.den
    let r := scaled - mkRat n 1
    let m := if r < mkRat 1 2 then n
             else if mkRat 1 2 < r then n + 1
             else if n % 2 = 0 then n else n + 1
    mkRat m 1 * pow2Z (e - 52)

/-- Binary64 addition of exactly-represented doubles. -/
def fadd (a b : ℚ) : ℚ := fl (a + b)

/-- Binary64 multiplication of exactly-represented doubles. -/
def fmul (a b : ℚ) : ℚ := fl (a * b)

/-- The binary64 value of the decimal literal `n / d` (CPython's correctly
rounded float literals and `float(...)` conversions). -/
def flit (n d : Nat) : ℚ := fl (mkRat n d)

/-! ### Regex AST

One constructor per `re` construct used by the source's patterns. -/

inductive RE where
  | eps
  | cls (p : Char → Bool)
  | seq (a b : RE)
  | alt (a b : RE)
  | quest (greedy : Bool) (a : RE)
  | star (greedy : Bool) (a : RE)
  | group (n : Nat) (a : RE)
  | lineStart
  | strEnd
  | wordB
  | look (a : RE)

/-- Captured groups: group number to captured text, last write wins. -/
abbrev Caps := List (Nat × String)

def upsertCap (n : Nat) (v : String) : Caps → Caps
  | [] => [(n, v)]
  | (m, w) :: t => if m = n then (n, v) :: t else (m, w) :: upsertCap n v t

def capGet (cs : Caps) (n : Nat) : Option String :=
  (cs.find? (fun p => p.1 == n)).map (·.2)

def isWordOpt : Option Char → Bool
  | none => false
  | some c => wordChar c

abbrev MCont := List Char → Option Char → Caps → Option (Caps × List Char)

/-- Backtracking matcher in continuation-passing style.  `s` is the
remaining input, `prev` the character just before it (for `^`/`\b`), `caps`
the captures so far.  Ordered `Option` choice implements `re`'s priority
order: left alternative first, greedy repetition longest-first, lazy
repetition shortest-first.  The fuel only bounds recursion depth; it is
chosen large enough (linear in the input) that it is never exhausted on the
patterns of this development. -/
def mrec : Nat → RE → List Char → Option Char → Caps → MCont → Option (Caps × List Char)
  | 0, _, _, _, _, _ => none
  | Nat.succ f, r, s, prev, caps, k =>
    match r with
    | .eps => k s prev caps
    | .cls p =>
      match s with
      | [] => none
      | c :: t => if p c then k t (some c) caps else none
    | .seq a b => mrec f a s prev caps (fun s' p' c' => mrec f b s' p' c' k)
    | .alt a b =>
      match mrec f a s prev caps k with
      | some res => some res
      | none => mrec f b s prev caps k
    | .quest true a =>
      match mrec f a s prev caps k with
      | some res => some res
      | none => k s prev caps
    | .quest false a =>
      match k s prev caps with
      | some res => some res
      | none => mrec f a s prev caps k
    | .star g a =>
      let again : MCont := fun s' p' c' =>
        if s'.length < s.length then mrec f (.star g a) s' p' c' k else none
      match g with
      | true =>
        match mrec f a s prev caps again with
        | some res => some res
        | none => k s prev caps
      | false =>
        match k s prev caps with
        | some res => some res
        | none => mrec f a s prev caps again
    | .group n a =>
      mrec f a s prev caps (fun s' p' c' =>
        k s' p' (upsertCap n (String.mk (s.take (s.length - s'.length))) c'))
    | .lineStart =>
      if prev == none || prev == some '\n' then k s prev caps else none
    | .strEnd =>
      match s with
      | [] => k s prev caps
      | _ :: _ => none
    | .wordB =>
      if isWordOpt prev != isWordOpt s.head? then k s prev caps else none
    | .look a =>
      match mrec f a s prev caps (fun s' _ c' => some (c', s')) with
      | some _ => k s prev caps
      | none => none

/-- Fuel that comfortably dominates the recursion depth of any match
attempt of this development's patterns on input `s`. -/
def reFuel (s : List Char) : Nat := (s.length + 4) * 64 + 256

/-- `re.match`: anchored attempt at the start of the string.  Returns the
captures and the number of characters consumed. -/
def reMatch (r : RE) (s : String) : Option (Caps × Nat) :=
  match mrec (reFuel s.toList) r s.toList none [] (fun s' _ c' => some (c', s')) with
  | some (caps, rest) => some (caps, s.toList.length - rest.length)
  | none => none

/-- The scan loop shared by `findall`/`finditer`: try the pattern at each
position left to right; on a match record the captures and resume after it
(advancing one character on a zero-width match, which none of the used
patterns can produce). -/
def scanIter (r : RE) : Nat → List Char → Option Char → List Caps
  | 0, _, _ => []
  | Nat.succ f, s, prev =>
    match mrec (reFuel s) r s prev [] (fun s' _ c' => some (c', s')) with
    | some (caps, rest) =>
      if rest.length < s.length then
        caps :: scanIter r f rest ((s.take (s.length - rest.length)).getLast?)
      else
        match s with
        | [] => [caps]
        | c :: t => caps :: scanIter r f t (some c)
    | none =>
      match s with
      | [] => []
      | c :: t => scanIter r f t (some c)

/-- `re.finditer`, as the capture lists of the successive matches. -/
def reFindIter (r : RE) (s : String) : List Caps :=
  scanIter r (s.toList.length + 2) s.toList none

/-- `len(re.findall(...))`. -/
def reCount (r : RE) (s : String) : Nat := (reFindIter r s).length

/-- `re.search(...)` as a Boolean. -/
def reSearchB (r : RE) (s : String) : Bool := !(reFindIter r s).isEmpty

/-- `re.split` by a pure-lookahead pattern `(?=r)`: cut the string before
every position where `r` matches, scanning left to right and advancing one
character after each (zero-width) split point. -/
def lookSplitGo (r : RE) : Nat → List Char → Option Char → List Char → List (List Char)
  | 0, s, _, cur => [cur.reverse ++ s]
  | Nat.succ f, s, prev, cur =>
    match mrec (reFuel s) r s prev [] (fun s' _ c' => some (c', s')) with
    | some _ =>
      match s with
      | [] => [cur.reverse, []]
      | c :: t => cur.reverse :: lookSplitGo r f t (some c) [c]
    | none =>
      match s with
      | [] => [cur.reverse]
      | c :: t => lookSplitGo r f t (some c) (c :: cur)

def reSplitLookahead (r : RE) (s : String) : List String :=
  (lookSplitGo r (s.toList.length + 2) s.toList none []).map String.mk

/-! ### Pattern constructors -/

def chr (c : Char) : RE := .cls (· == c)

def chrCI (c : Char) : RE := .cls (fun x => x.toLower == c.toLower)

def seqL (rs : List RE) : RE := rs.foldr .seq .eps

def lit (s : String) : RE := seqL (s.toList.map chr)

def litCI (s : String) : RE := seqL (s.toList.map chrCI)

def rplus (g : Bool) (a : RE) : RE := .seq a (.star g a)

def dch : RE := .cls Char.isDigit
def sch : RE := .cls pySpace
def ach : RE := .cls alphaChar

/-! ### The source's patterns, transcribed constructor by constructor -/

/-- `\b\d+\s+[A-Za-z]+\s+[A-Za-z]+\s+(\d)\s+` (the detectors'
`numeric_grade_pattern`; `re.MULTILINE` is irrelevant, the pattern has no
anchors). -/
def numericGradeRE : RE :=
  seqL [.wordB, rplus true dch, rplus true sch, rplus true ach, rplus true sch,
        rplus true ach, rplus true sch, .group 1 dch, rplus true sch]

/-- `\d+:\d{2}(?:\.\d+)?` (the detectors' local `TIME_PATTERN`). -/
def detTimeRE : RE :=
  seqL [rplus true dch, chr ':', dch, dch,
        .quest true (seqL [chr '.', rplus true dch])]

/-- `^\s+\d+\s` with `re.MULTILINE` (detect_cole's `place_markers`). -/
def placeMarkerRE : RE :=
  seqL [.lineStart, rplus true sch, rplus true dch, sch]

/-- `\b(FR|SO|JR|SR)\b` (case sensitive). -/
def gradeTokensRE : RE :=
  seqL [.wordB, .group 1 (.alt (lit "FR") (.alt (lit "SO") (.alt (lit "JR") (lit "SR")))),
        .wordB]

/-- `Team\s+Scores` with `re.IGNORECASE`. -/
def teamScoresRE : RE :=
  seqL [litCI "Team", rplus true sch, litCI "Scores"]

/-- `results/(\d+)/` (shared `extract_race_id`). -/
def raceIdRE : RE :=
  seqL [lit "results/", .group 1 (rplus true dch), chr '/']

/-- `[A-Za-z',.\- ]` (cole patterns' name class). -/
def coleNameChar (c : Char) : Bool := alphaChar c || ['\'', ',', '.', '-', ' '].contains c

/-- `[A-Za-z .'\-]` (cole patterns' team class). -/
def coleTeamChar (c : Char) : Bool := alphaChar c || [' ', '.', '\'', '-'].contains c

/-- `\d+:\d{2}(?:\.\d+)?|\d+:\d+:\d{2}(?:\.\d+)?` (the wranglers' time
group, `mm:ss(.ff)` or `h:mm:ss(.ff)`). -/
def wrTimeRE : RE :=
  .alt (seqL [rplus true dch, chr ':', dch, dch,
              .quest true (seqL [chr '.', rplus true dch])])
       (seqL [rplus true dch, chr ':', rplus true dch, chr ':', dch, dch,
              .quest true (seqL [chr '.', rplus true dch])])

/-- `wrangle_cole`'s line pattern
`^(?P<place>\d+)\.?\s+(?:(?P<grade>\d+)\s+)?(?P<name>[A-Za-z',.\- ]+?)\s+`
`(?P<time>...)(?:\s+(?P<tag>[A-Za-z]+))?\s+(?P<team>[A-Za-z][A-Za-z .'\-]+)$`
with groups 1=place, 2=grade, 3=name, 4=time, 5=tag, 6=team. -/
def coleLineRE : RE :=
  seqL [.group 1 (rplus true dch), .quest true (chr '.'), rplus true sch,
        .quest true (.seq (.group 2 (rplus true dch)) (rplus true sch)),
        .group 3 (rplus false (.cls coleNameChar)), rplus true sch,
        .group 4 wrTimeRE,
        .quest true (.seq (rplus true sch) (.group 5 (rplus true ach))),
        rplus true sch,
        .group 6 (.seq ach (rplus true (.cls coleTeamChar))), .strEnd]

/-- `wrangle_cole`'s packed pattern
`(?P<place>\d+)\.\s+(?:(?P<grade>\d+)\s+)?(?P<name>[A-Za-z',.\- ]+?)\s+`
`(?P<time>...)(?:\s+(?P<tag>[A-Za-z]+))?\s+(?P<team>[A-Za-z][A-Za-z .'\-]+?)`
`(?=\s+\d+\.|$)` — the team is lazy and each record ends at the start of the
next `N.` anchor or at end of text. -/
def colePackedRE : RE :=
  seqL [.group 1 (rplus true dch), chr '.', rplus true sch,
        .quest true (.seq (.group 2 (rplus true dch)) (rplus true sch)),
        .group 3 (rplus false (.cls coleNameChar)), rplus true sch,
        .group 4 wrTimeRE,
        .quest true (.seq (rplus true sch) (.group 5 (rplus true ach))),
        rplus true sch,
        .group 6 (.seq ach (rplus false (.cls coleTeamChar))),
        .look (.alt (seqL [rplus true sch, rplus true dch, chr '.']) .strEnd)]

/-- `[A-Za-z\'\-. ]` (wrangle_max's name/team class). -/
def maxNameChar (c : Char) : Bool := alphaChar c || ['\'', '-', '.', ' '].contains c

/-- `wrangle_max`'s prefilter `^\d+\s`. -/
def maxPreRE : RE := seqL [rplus true dch, sch]

/-- `wrangle_max`'s line pattern
`^(\d+)\s+([A-Za-z\'\-. ]+?)\s+(FR|SO|JR|SR)\s+([A-Za-z\'\-. ]+?)\s+`
`\d*:?[\d.]*\s+(\d+:\d+(?:\.\d+)?)\s+(\d+)?$`. -/
def maxLineRE : RE :=
  seqL [.group 1 (rplus true dch), rplus true sch,
        .group 2 (rplus false (.cls maxNameChar)), rplus true sch,
        .group 3 (.alt (lit "FR") (.alt (lit "SO") (.alt (lit "JR") (lit "SR")))),
        rplus true sch,
        .group 4 (rplus false (.cls maxNameChar)), rplus true sch,
        .star true dch, .quest true (chr ':'),
        .star true (.cls (fun c => c.isDigit || c == '.')),
        rplus true sch,
        .group 5 (seqL [rplus true dch, chr ':', rplus true dch,
                        .quest true (seqL [chr '.', rplus true dch])]),
        rplus true sch,
        .quest true (.group 6 (rplus true dch)), .strEnd]

/-- `[A-Z]`. -/
def upperChar (c : Char) : Bool := 65 ≤ c.toNat && c.toNat ≤ 90

/-- The inner pattern of `wrangle_max`'s section split
`re.split(r'(?=\b[A-Z][A-Za-z/ &-]+ (?:Boys|Girls)\b)', text)`. -/
def maxSectionRE : RE :=
  seqL [.wordB, .cls upperChar,
        rplus true (.cls (fun c => alphaChar c || ['/', ' ', '&', '-'].contains c)),
        chr ' ', .alt (lit "Boys") (lit "Girls"), .wordB]

/-- `detect_adam.py`'s `TIME_LIKE`:
`\b\d{1,2}:\d{2}(\.\d+)?\b|\b\d+\.\d+\b`. -/
def timeLikeRE : RE :=
  .alt (seqL [.wordB, dch, .quest true dch, chr ':', dch, dch,
              .quest true (.group 1 (seqL [chr '.', rplus true dch])), .wordB])
       (seqL [.wordB, rplus true dch, chr '.', rplus true dch, .wordB])

/-! ### DOM model

A parsed HTML document is a forest of nodes.  Elements carry the only
attributes the source reads: `id`, the (multi-valued) `class` list, and
`href`. -/

inductive Node where
  | elem (tag : String) (idAttr : Option String) (classes : List String)
         (href : Option String) (children : List Node)
  | text (s : String)

def Node.tagOf : Node → Option String
  | .elem t _ _ _ _ => some t
  | .text _ => none

def Node.isTag (t : String) (n : Node) : Bool := n.tagOf == some t

def Node.idOf : Node → Option String
  | .elem _ i _ _ _ => i
  | .text _ => none

def Node.classList : Node → List String
  | .elem _ _ cs _ _ => cs
  | .text _ => []

def Node.hrefOf : Node → Option String
  | .elem _ _ _ h _ => h
  | .text _ => none

def Node.childrenOf : Node → List Node
  | .elem _ _ _ _ cs => cs
  | .text _ => []

mutual
/-- Document-order (preorder) list of a node and all its descendants. -/
def Node.selfAndDescendants : Node → List Node
  | .text s => [.text s]
  | .elem t i c h cs => .elem t i c h cs :: forestNodes cs

/-- Document-order list of all nodes of a forest. -/
def forestNodes : List Node → List Node
  | [] => []
  | n :: t => n.selfAndDescendants ++ forestNodes t
end

/-- All strict descendants of a node, in document order (what
BeautifulSoup's `Tag.find_all` searches). -/
def Node.descendants (n : Node) : List Node := forestNodes n.childrenOf

mutual
/-- The text-node strings below a node, in document order. -/
def Node.textFragments : Node → List String
  | .text s => [s]
  | .elem _ _ _ _ cs => forestTextFragments cs

def forestTextFragments : List Node → List String
  | [] => []
  | n :: t => n.textFragments ++ forestTextFragments t
end

/-- `Tag.get_text(sep, strip=True)`: join the stripped nonempty text
fragments with the separator. -/
def Node.getText (sep : String) (n : Node) : String :=
  joinSep sep (((n.textFragments).map pyStrip).filter (· ≠ ""))

/-- `soup.find_all(tag)`: every element of the document with this tag, in
document order. -/
def findAllTag (page : List Node) (t : String) : List Node :=
  (forestNodes page).filter (Node.isTag t)

/-- `soup.find(id=i)`. -/
def firstWithId (page : List Node) (i : String) : Option Node :=
  (forestNodes page).find? (fun n => n.idOf == some i)

/-- `soup.find(class_=c)`: class lists are multi-valued, `class_` matches
when any of them equals the value. -/
def firstWithClass (page : List Node) (c : String) : Option Node :=
  (forestNodes page).find? (fun n => n.classList.contains c)

/-- `soup.find(tag, id=i)`. -/
def firstTagWithId (page : List Node) (t i : String) : Option Node :=
  (forestNodes page).find? (fun n => n.isTag t && n.idOf == some i)

/-- `soup.find(tag, class_=c)`. -/
def firstTagWithClass (page : List Node) (t c : String) : Option Node :=
  (forestNodes page).find? (fun n => n.isTag t && n.classList.contains c)

def Node.isThTd (n : Node) : Bool := n.isTag "td" || n.isTag "th"

mutual
/-- `soup.select("table tbody a[href]")`: every `a` element carrying an
`href`, lying below a `tbody` that lies below a `table`.  The flags record
whether a `table` (resp. a `tbody` inside a `table`) is among the proper
ancestors. -/
def selectTTAGo (inTable inTbody : Bool) : Node → List Node
  | .text _ => []
  | .elem t i c h cs =>
    let here := if t == "a" && h.isSome && inTbody then [Node.elem t i c h cs] else []
    let inTable' := inTable || t == "table"
    let inTbody' := inTbody || (t == "tbody" && inTable)
    here ++ selectTTAForest inTable' inTbody' cs

def selectTTAForest (inTable inTbody : Bool) : List Node → List Node
  | [] => []
  | n :: t => selectTTAGo inTable inTbody n ++ selectTTAForest inTable inTbody t
end

def selectTableTbodyAHref (page : List Node) : List Node :=
  selectTTAForest false false page

/-! ### Detectors of `get_milesplit_formatted_meet_results.py`

Each detector returns a score in `[0,1]`; the dispatcher picks the highest.
Every detector is split into an unclamped accumulation (`*_raw`) and the
final clamp `min · 1`, mirroring `return float(min(score, 1.0))`. -/

def REQUIRED_HEADERS_KATIE : List String :=
  ["place", "video", "athlete", "grade", "team", "finish", "point"]

def REQUIRED_HEADERS_COLE : List String := ["results", "print", "mile", "run"]

def REQUIRED_HEADERS_MAX : List String := ["fr", "so", "jr", "sr"]

def REQUIRED_HEADERS_ADAM : List String := ["place", "athlete", "grade", "school", "time"]

/-- `soup.find(id="meetResultsBody") or soup.find(class_="meetResultsBody")`. -/
def findMeetResultsBody (page : List Node) : Option Node :=
  match firstWithId page "meetResultsBody" with
  | some n => some n
  | none => firstWithClass page "meetResultsBody"

/-- `" ".join(pre.get_text(" ", strip=True) for pre in pre_blocks)`. -/
def preBlocksText (pres : List Node) : String :=
  joinSep " " (pres.map (Node.getText " "))

/-- `detect_cole` before the final clamp. -/
def detect_cole_raw (page : List Node) : ℚ :=
  match findMeetResultsBody page with
  | none => 0
  | some rb =>
    let pres := rb.descendants.filter (Node.isTag "pre")
    if pres.isEmpty then 0
    else
      let textAll := preBlocksText pres
      let numericGrades := reCount numericGradeRE textAll
      let b1 : ℚ := if numericGrades ≥ 5 then mkRat 7 10
                    else if numericGrades ≥ 2 then mkRat 4 10 else 0
      let times := reCount detTimeRE textAll
      let b2 : ℚ := if times ≥ 8 then mkRat 2 10 else if times ≥ 4 then mkRat 1 10 else 0
      let placeMarkers := reCount placeMarkerRE textAll
      let b3 : ℚ := if placeMarkers ≥ 5 then mkRat 15 100 else 0
      let gradeTokens := reCount gradeTokensRE textAll
      let s := b1 + b2 + b3
      if gradeTokens ≥ 3 then s * mkRat 3 10 else s

def detect_cole (page : List Node) : ℚ := ratMin (detect_cole_raw page) 1

/-- `detect_max` before the final clamp. -/
def detect_max_raw (page : List Node) : ℚ :=
  match findMeetResultsBody page with
  | none => 0
  | some rb =>
    let pres := rb.descendants.filter (Node.isTag "pre")
    if pres.isEmpty then 0
    else
      let textAll := preBlocksText pres
      let gradeTokens := reCount gradeTokensRE textAll
      let b1 : ℚ := if gradeTokens ≥ 8 then mkRat 7 10
                    else if gradeTokens ≥ 4 then mkRat 5 10
                    else if gradeTokens ≥ 1 then mkRat 2 10 else 0
      let times := reCount detTimeRE textAll
      let b2 : ℚ := if times ≥ 5 then mkRat 2 10 else 0
      let b3 : ℚ := if reSearchB teamScoresRE textAll then mkRat 15 100 else 0
      let numericGrades := reCount numericGradeRE textAll
      let s := b1 + b2 + b3
      if numericGrades ≥ 3 then s * mkRat 4 10 else s

def detect_max (page : List Node) : ℚ := ratMin (detect_max_raw page) 1

/-- The running-maximum loop `best = max(best, m)` shared by the header
scoring of `detect_adam` and `detect_katie`. -/
def natBestLoop : List Nat → Nat → Nat
  | [], b => b
  | m :: t, b => natBestLoop t (max b m)

/-- One table's header-match count in `detect_adam`: skip tables with fewer
than two rows, look at the first row, and when it has at least four cells
count how many of the expected headers appear among the lower-cased cell
texts. -/
def adamTableHeaderMatches (t : Node) : Option Nat :=
  let rows := t.descendants.filter (Node.isTag "tr")
  if rows.length < 2 then none
  else
    match rows.head? with
    | none => none
    | some r0 =>
      let cells := r0.descendants.filter Node.isThTd
      if cells.length ≥ 4 then
        some (interCount REQUIRED_HEADERS_ADAM
          (cells.map (fun c => lowerStr (c.getText " "))))
      else none

/-- `detect_adam`'s data-row bonus: the first table with at least five rows
having four or more `td` cells contributes `0.2` (ten or more rows) or
`0.1`, and the loop breaks there. -/
def adamRowsBonus : List Node → ℚ
  | [] => 0
  | t :: ts =>
    let rows := t.descendants.filter (Node.isTag "tr")
    let dataRows := rows.filter (fun r =>
      (r.descendants.filter (Node.isTag "td")).length ≥ 4)
    if dataRows.length ≥ 10 then mkRat 2 10
    else if dataRows.length ≥ 5 then mkRat 1 10
    else adamRowsBonus ts

/-- The dispatcher module's `detect_adam` before the final clamp. -/
def detect_adam_raw (page : List Node) : ℚ :=
  match findMeetResultsBody page with
  | none => 0
  | some container =>
    let tables := container.descendants.filter (Node.isTag "table")
    if tables.isEmpty then 0
    else
      let bhm := natBestLoop (tables.filterMap adamTableHeaderMatches) 0
      let hb : ℚ := if bhm ≥ 4 then mkRat 5 10
                    else if bhm ≥ 3 then mkRat 3 10
                    else if bhm ≥ 2 then mkRat 2 10 else 0
      mkRat 3 10 + hb + adamRowsBonus tables

def detect_adam (page : List Node) : ℚ := ratMin (detect_adam_raw page) 1

/-- One table's class hits in `detect_katie`: how many of the Katie header
classes appear among the stripped, lower-cased cell classes. -/
def katieTableHits (t : Node) : Nat :=
  interCount REQUIRED_HEADERS_KATIE
    (((t.descendants.filter Node.isThTd).map Node.classList).flatten.map
      (fun c => lowerStr (pyStrip c)))

/-- `detect_katie` before the final clamp. -/
def detect_katie_raw (page : List Node) : ℚ :=
  let tables := findAllTag page "table"
  if tables.isEmpty then 0
  else
    let bestHit := natBestLoop (tables.map katieTableHits) 0
    let b1 : ℚ := if bestHit ≥ 5 then mkRat 7 10
                  else if bestHit ≥ 3 then mkRat 5 10
                  else if bestHit ≥ 1 then mkRat 2 10 else 0
    let hasEventTable := tables.any (fun t =>
      t.classList.any (fun c => substrOf "eventtable" (lowerStr c)))
    let b2 : ℚ := if hasEventTable then mkRat 2 10 else 0
    let b3 : ℚ := if (selectTableTbodyAHref page).length ≥ 5 then mkRat 1 10 else 0
    b1 + b2 + b3

def detect_katie (page : List Node) : ℚ := ratMin (detect_katie_raw page) 1

/-! ### The detectors over binary64 arithmetic

The `detect_*` functions above give the exact rational value of each
accumulated sum; the program, however, stores binary64 values in its
`scores` dict, and the dispatcher compares those.  The `detect_*_f`
functions below re-run the very same accumulations — same signals, same
branch structure, in source order — with every literal, `+=` and `*=`
rounded through `fl`, so they produce the bit-exact doubles the program
computes.  `min(score, 1.0)` on doubles is a comparison-and-select, exact
on the represented values, hence `ratMin`. -/

/-- `detect_cole` over binary64 arithmetic: the double the program stores
under `scores["cole"]`. -/
def detect_cole_f (page : List Node) : ℚ :=
  match findMeetResultsBody page with
  | none => 0
  | some rb =>
    let pres := rb.descendants.filter (Node.isTag "pre")
    if pres.isEmpty then 0
    else
      let textAll := preBlocksText pres
      let numericGrades := reCount numericGradeRE textAll
      let s1 : ℚ := if numericGrades ≥ 5 then fadd 0 (flit 7 10)
                    else if numericGrades ≥ 2 then fadd 0 (flit 4 10) else 0
      let times := reCount detTimeRE textAll
      let s2 : ℚ := if times ≥ 8 then fadd s1 (flit 2 10)
                    else if times ≥ 4 then fadd s1 (flit 1 10) else s1
      let placeMarkers := reCount placeMarkerRE textAll
      let s3 : ℚ := if placeMarkers ≥ 5 then fadd s2 (flit 15 100) else s2
      let gradeTokens := reCount gradeTokensRE textAll
      let s4 : ℚ := if gradeTokens ≥ 3 then fmul s3 (flit 3 10) else s3
      ratMin s4 1

/-- `detect_max` over binary64 arithmetic: the double the program stores
under `scores["max"]`. -/
def detect_max_f (page : List Node) : ℚ :=
  match findMeetResultsBody page with
  | none => 0
  | some rb =>
    let pres := rb.descendants.filter (Node.isTag "pre")
    if pres.isEmpty then 0
    else
      let textAll := preBlocksText pres
      let gradeTokens := reCount gradeTokensRE textAll
      let s1 : ℚ := if gradeTokens ≥ 8 then fadd 0 (flit 7 10)
                    else if gradeTokens ≥ 4 then fadd 0 (flit 5 10)
                    else if gradeTokens ≥ 1 then fadd 0 (flit 2 10) else 0
      let times := reCount detTimeRE textAll
      let s2 : ℚ := if times ≥ 5 then fadd s1 (flit 2 10) else s1
      let s3 : ℚ := if reSearchB teamScoresRE textAll then fadd s2 (flit 15 100) else s2
      let numericGrades := reCount numericGradeRE textAll
      let s4 : ℚ := if numericGrades ≥ 3 then fmul s3 (flit 4 10) else s3
      ratMin s4 1

/-- `detect_adam`'s data-row loop over binary64 arithmetic: the first table
with at least five 4-`td` rows adds `0.2` (ten or more rows) or `0.1` to
the running score and breaks. -/
def adamRowsLoopF (score : ℚ) : List Node → ℚ
  | [] => score
  | t :: ts =>
    let rows := t.descendants.filter (Node.isTag "tr")
    let dataRows := rows.filter (fun r =>
      (r.descendants.filter (Node.isTag "td")).length ≥ 4)
    if dataRows.length ≥ 10 then fadd score (flit 2 10)
    else if dataRows.length ≥ 5 then fadd score (flit 1 10)
    else adamRowsLoopF score ts

/-- The dispatcher module's `detect_adam` over binary64 arithmetic: the
double the program stores under `scores["adam"]`. -/
def detect_adam_f (page : List Node) : ℚ :=
  match findMeetResultsBody page with
  | none => 0
  | some container =>
    let tables := container.descendants.filter (Node.isTag "table")
    if tables.isEmpty then 0
    else
      let s1 : ℚ := fadd 0 (flit 3 10)
      let bhm := natBestLoop (tables.filterMap adamTableHeaderMatches) 0
      let s2 : ℚ := if bhm ≥ 4 then fadd s1 (flit 5 10)
                    else if bhm ≥ 3 then fadd s1 (flit 3 10)
                    else if bhm ≥ 2 then fadd s1 (flit 2 10) else s1
      ratMin (adamRowsLoopF s2 tables) 1

/-- `detect_katie` over binary64 arithmetic: the double the program stores
under `scores["katie"]`. -/
def detect_katie_f (page : List Node) : ℚ :=
  let tables := findAllTag page "table"
  if tables.isEmpty then 0
  else
    let bestHit := natBestLoop (tables.map katieTableHits) 0
    let s1 : ℚ := if bestHit ≥ 5 then fadd 0 (flit 7 10)
                  else if bestHit ≥ 3 then fadd 0 (flit 5 10)
                  else if bestHit ≥ 1 then fadd 0 (flit 2 10) else 0
    let hasEventTable := tables.any (fun t =>
      t.classList.any (fun c => substrOf "eventtable" (lowerStr c)))
    let s2 : ℚ := if hasEventTable then fadd s1 (flit 2 10) else s1
    let s3 : ℚ := if (selectTableTbodyAHref page).length ≥ 5 then fadd s2 (flit 1 10)
                  else s2
    ratMin s3 1

end MeetResults

/-! ## `src/detect_adam.py`: the standalone revision of the adam detector -/

namespace DetectAdam

open MeetResults

def REQUIRED_HEADERS_ADAM : List String := ["place", "athlete", "grade", "school", "time"]

def W_STRONG : ℚ := mkRat 6 10
def W_HEADERS : ℚ := mkRat 3 10
def W_TABLECOUNT : ℚ := mkRat 5 100
def W_STRUCTURE : ℚ := mkRat 2 10

def SYNONYMS : List (String × String) :=
  [("mark", "time"), ("result", "time"), ("finish", "time"),
   ("name", "athlete"), ("competitor", "athlete"), ("team", "school"),
   ("yr", "grade"), ("year", "grade"), ("pl", "place")]

/-- `_normalize_tokens`: strip, lower-case, drop empties, apply the synonym
table, and collect into a set (modelled as a duplicate-free list). -/
def normalizeTokens (ts : List String) : List String :=
  ts.foldl (fun out t =>
    if t.toList.isEmpty then out
    else
      let s := lowerStr (pyStrip t)
      if s.toList.isEmpty then out
      else
        let s := ((SYNONYMS.find? (·.1 == s)).map (·.2)).getD s
        setInsert s out) []

/-- `has_milesplit_results_header_structure`: nested landmark chain
`article > header > form#frmMeetResultsDetailFilter >
select#ddResultsPage` containing at least one `option`. -/
def hasMilesplitResultsHeaderStructure (page : List Node) : Bool :=
  match (forestNodes page).find? (Node.isTag "article") with
  | none => false
  | some article =>
    match article.descendants.find? (Node.isTag "header") with
    | none => false
    | some header =>
      match header.descendants.find? (fun n =>
          n.isTag "form" && n.idOf == some "frmMeetResultsDetailFilter") with
      | none => false
      | some form =>
        match form.descendants.find? (fun n =>
            n.isTag "select" && n.idOf == some "ddResultsPage") with
        | none => false
        | some sel => !(sel.descendants.filter (Node.isTag "option")).isEmpty

/-- `_find_meetresults_tables`: the tables below the element with id
`meetResultsBody` (id only — no `class_` fallback in this revision), or
`[]` when the container is absent. -/
def findMeetresultsTables (page : List Node) : List Node :=
  match firstWithId page "meetResultsBody" with
  | none => []
  | some c => c.descendants.filter (Node.isTag "table")

/-- `_header_tokens_for_table`: prefer a `thead`'s cells; otherwise scan the
first four rows (direct-child cells only), keeping the largest token set
among rows with at least three cells and at least two required headers. -/
def bestHeaderRowLoop : List Node → List String → List String
  | [], best => best
  | tr :: rest, best =>
    let cells := tr.childrenOf.filter Node.isThTd
    if cells.length < 3 then bestHeaderRowLoop rest best
    else
      let toks := normalizeTokens (cells.map (Node.getText " "))
      if interCount REQUIRED_HEADERS_ADAM toks ≥ 2 && toks.length > best.length
      then bestHeaderRowLoop rest toks
      else bestHeaderRowLoop rest best

def headerTokensForTable (tbl : Node) : List String :=
  match tbl.descendants.find? (Node.isTag "thead") with
  | some thead =>
    normalizeTokens ((thead.descendants.filter Node.isThTd).map (Node.getText " "))
  | none =>
    bestHeaderRowLoop ((tbl.descendants.filter (Node.isTag "tr")).take 4) []

/-- `_table_looks_like_results`: the table's text contains a time-like
token. -/
def tableLooksLikeResults (tbl : Node) : Bool :=
  reSearchB timeLikeRE (tbl.getText " ")

/-- The header-overlap ratio of one candidate's token set:
`overlap / len(REQUIRED_HEADERS_ADAM)`. -/
def headerOverlapRatio (toks : List String) : ℚ :=
  mkRat (interCount REQUIRED_HEADERS_ADAM toks) REQUIRED_HEADERS_ADAM.length

/-- The best-of loop over the candidates' header token sets, with the
source's early exit at a perfect score. -/
def qBestLoop : List (List String) → ℚ → ℚ
  | [], b => b
  | toks :: rest, b =>
    let ov := interCount REQUIRED_HEADERS_ADAM toks
    if ov ≠ 0 then
      let b' := ratMax b (headerOverlapRatio toks)
      if b' = 1 then b' else qBestLoop rest b'
    else qBestLoop rest b

/-- `detect_adam` of `detect_adam.py` before the final clamp.  Note the two
early returns (`return score`) when the container or its tables are absent:
they return the accumulated structure bonus unclamped. -/
def detect_adam_raw (page : List Node) : ℚ :=
  let s0 : ℚ := if hasMilesplitResultsHeaderStructure page then W_STRUCTURE else 0
  let tables := findMeetresultsTables page
  if tables.isEmpty then s0
  else
    let cands :=
      let c := tables.filter tableLooksLikeResults
      if c.isEmpty then tables else c
    let bhs := qBestLoop (cands.map headerTokensForTable) 0
    let s2 := s0 + W_STRONG + W_HEADERS * bhs
    if cands.length ≥ 2 then s2 + W_TABLECOUNT else s2

def detect_adam (page : List Node) : ℚ := ratMin (detect_adam_raw page) 1

end DetectAdam

namespace MeetResults

/-! ### Output record shapes -/

def INDIVIDUAL_TABLE_HEADERS : List String :=
  ["place", "video", "athlete", "grade", "team", "finish", "point"]

def TEAM_TABLE_HEADERS : List String := ["place", "tsTeam", "point", "wind", "heat"]

/-- A row of `wrangle_cole`'s individual DataFrame. -/
structure ColeRow where
  place : Nat
  video : Option String
  athlete : String
  grade : Option Nat
  team : String
  finish : String
  point : Option String
deriving Repr, DecidableEq

/-- A row of `wrangle_max`'s individual DataFrame. -/
structure MaxRow where
  place : Nat
  video : Option String
  athlete : String
  grade : String
  team : String
  finish : String
  point : Option String
deriving Repr, DecidableEq

/-- A row dict built by the generic table extractor: the fixed provenance
keys plus the class-keyed cell fields, with Python-dict overwrite
semantics. -/
structure RowData where
  race_id : Option String
  race_url : String
  fields : List (String × String)
deriving Repr, DecidableEq

def upsertField (k v : String) : List (String × String) → List (String × String)
  | [] => [(k, v)]
  | (k', v') :: t => if k' = k then (k, v) :: t else (k', v') :: upsertField k v t

def RowData.get (r : RowData) (k : String) : Option String :=
  (r.fields.find? (·.1 == k)).map (·.2)

/-- One row of a metadata DataFrame. -/
structure MetaRow where
  race_id : Option String
  url : String
  table_index : Option Nat
  table_type : String
  row_count : Nat
  assignedParser : Option String := none
  detector_score : Option ℚ := none
deriving Repr, DecidableEq

/-- `extract_race_id`: `re.search(r'results/(\d+)/', url)`, group 1. -/
def extract_race_id (url : String) : Option String :=
  ((reFindIter raceIdRE url).head?).bind (fun caps => capGet caps 1)

/-! ### Wranglers -/

def coleRowOfCaps (caps : Caps) : ColeRow :=
  { place := pyInt ((capGet caps 1).getD ""),
    video := none,
    athlete := pyStrip ((capGet caps 3).getD ""),
    grade := (capGet caps 2).map pyInt,
    team := pyStrip ((capGet caps 6).getD ""),
    finish := (capGet caps 4).getD "",
    point := none }

/-- One iteration of `wrangle_cole`'s line loop: normalize the line, require
a leading digit, then match the position-sensitive line pattern. -/
def coleParseLine (raw : String) : Option ColeRow :=
  let line := normalizeWs raw
  if !startsWithDigit line then none
  else
    match reMatch coleLineRE line with
    | none => none
    | some (caps, _) => some (coleRowOfCaps caps)

/-- `soup.find("div", id="meetResultsBody") or
soup.find("div", class_="meetResultsBody")`. -/
def findResultsDiv (page : List Node) : Option Node :=
  match firstTagWithId page "div" "meetResultsBody" with
  | some d => some d
  | none => firstTagWithClass page "div" "meetResultsBody"

/-- The individual rows produced by `wrangle_cole`'s line-based pass. -/
def coleLineRows (text : String) : List ColeRow :=
  (pySplitlines text).filterMap coleParseLine

/-- The individual rows produced by `wrangle_cole`'s packed-text fallback. -/
def colePackedRows (text : String) : List ColeRow :=
  (reFindIter colePackedRE (normalizeWs text)).map coleRowOfCaps

/-- `wrangle_cole`: line-based parsing of the `pre` block, falling back to
packed-text parsing when fewer than three lines match.  Returns only the
individual table (the source returns a single DataFrame). -/
def wrangle_cole (page : List Node) (_url : String) : List ColeRow :=
  match findResultsDiv page with
  | none => []
  | some dv =>
    match dv.descendants.find? (Node.isTag "pre") with
    | none => []
    | some pre =>
      let text := pre.getText "\n"
      let lineRows := coleLineRows text
      if lineRows.length ≥ 3 then lineRows else colePackedRows text

def maxRowOfCaps (caps : Caps) : MaxRow :=
  { place := pyInt ((capGet caps 1).getD ""),
    video := none,
    athlete := pyStrip ((capGet caps 2).getD ""),
    grade := (capGet caps 3).getD "",
    team := pyStrip ((capGet caps 4).getD ""),
    finish := (capGet caps 5).getD "",
    point := capGet caps 6 }

/-- One iteration of `wrangle_max`'s line loop. -/
def maxParseLine (raw : String) : Option MaxRow :=
  let line := normalizeWs raw
  match reMatch maxPreRE line with
  | none => none
  | some _ =>
    match reMatch maxLineRE line with
    | none => none
    | some (caps, _) => some (maxRowOfCaps caps)

/-- `wrangle_max`: whitespace-normalize the `pre` text, split it into
sections before each `<Event name> Boys|Girls` heading, parse each
section's lines, and pair the result with an always-empty team table. -/
def wrangle_max (page : List Node) (_url : String) : List MaxRow × List RowData :=
  match findResultsDiv page with
  | none => ([], [])
  | some dv =>
    match dv.descendants.find? (Node.isTag "pre") with
    | none => ([], [])
    | some pre =>
      let text := normalizeWs (pre.getText "\n")
      let sections := reSplitLookahead maxSectionRE text
      let rows := (sections.map (fun sectionStr =>
        let sec := pyStrip sectionStr
        if sec.toList.isEmpty then []
        else (pySplitlines sec).filterMap maxParseLine)).flatten
      (rows, [])

/-- `wrangle_adam` is a stub in the source: always empty. -/
def wrangle_adam (_page : List Node) (_url : String) : List RowData × List RowData :=
  ([], [])

/-- `wrangle_katie` is a stub in the source: always empty. -/
def wrangle_katie (_page : List Node) (_url : String) : List RowData × List RowData :=
  ([], [])

/-! ### The robust (generic, class-attribute-driven) table extractor -/

inductive TableType where
  | individual
  | team
  | unknown
deriving Repr, DecidableEq

/-- The stripped class tokens of all `td`/`th` cells of a table. -/
def tableCellClasses (t : Node) : List String :=
  ((t.descendants.filter Node.isThTd).map Node.classList).flatten.map pyStrip

/-- Table classification: individual when it has at least three individual
header classes and at least as many as team header classes; team when it
has at least three team header classes; otherwise unknown. -/
def classifyTable (t : Node) : TableType :=
  let cls := tableCellClasses t
  let ih := interCount INDIVIDUAL_TABLE_HEADERS cls
  let th := interCount TEAM_TABLE_HEADERS cls
  if ih ≥ 3 ∧ ih ≥ th then .individual
  else if th ≥ 3 then .team
  else .unknown

/-- Fold one cell into the row dict: for each stripped class token that is a
known header of this table type, store the cell text under it, and when the
cell contains a link with a nonempty `href`, store the target under
`<class>_url`. -/
def applyCell (headers : List String) (fields : List (String × String)) (cell : Node) :
    List (String × String) :=
  let textVal := cell.getText " "
  cell.classList.foldl (fun fs cls0 =>
    let cls := pyStrip cls0
    if headers.contains cls then
      let fs := upsertField cls textVal fs
      match cell.descendants.find? (Node.isTag "a") with
      | some link =>
        match link.hrefOf with
        | some h => if h.toList.isEmpty then fs else upsertField (cls ++ "_url") h fs
        | none => fs
      | none => fs
    else fs) fields

/-- Individual-row acceptance: the stripped place matches `^\d+$` and both
the athlete and the finish field are present. -/
def acceptIndivRow (rd : RowData) : Bool :=
  isDigitString (pyStrip ((rd.get "place").getD "")) &&
  (rd.get "athlete").isSome && (rd.get "finish").isSome

/-- Team-row acceptance: the stripped place matches `^\d+$`. -/
def acceptTeamRow (rd : RowData) : Bool :=
  isDigitString (pyStrip ((rd.get "place").getD ""))

/-- One iteration of the row loop: skip rows without `td` cells, build the
row dict, and keep the row only when the acceptance rule of the table type
holds. -/
def processRow (ttype : TableType) (raceId : Option String) (url : String) (row : Node) :
    Option RowData :=
  let cells := row.descendants.filter (Node.isTag "td")
  if cells.isEmpty then none
  else
    let headers := if ttype = .individual then INDIVIDUAL_TABLE_HEADERS
                   else TEAM_TABLE_HEADERS
    let rd : RowData :=
      { race_id := raceId, race_url := url, fields := cells.foldl (applyCell headers) [] }
    if ttype = .individual then (if acceptIndivRow rd then some rd else none)
    else (if acceptTeamRow rd then some rd else none)

/-- The rows scanned for a table: the `tbody`'s rows when one exists,
otherwise all rows of the table. -/
def tableRowNodes (t : Node) : List Node :=
  match t.descendants.find? (Node.isTag "tbody") with
  | some tb => tb.descendants.filter (Node.isTag "tr")
  | none => t.descendants.filter (Node.isTag "tr")

/-- Process one table: classify it, extract its accepted rows, and emit its
single metadata row (zero-row `unknown_headers` entry for unclassified
tables). -/
def processTable (raceId : Option String) (url : String) (idx : Nat) (t : Node) :
    List RowData × List RowData × MetaRow :=
  match classifyTable t with
  | .unknown =>
    ([], [], { race_id := raceId, url := url, table_index := some idx,
               table_type := "unknown_headers", row_count := 0 })
  | .individual =>
    let rows := (tableRowNodes t).filterMap (processRow .individual raceId url)
    (rows, [], { race_id := raceId, url := url, table_index := some idx,
                 table_type := "individual", row_count := rows.length })
  | .team =>
    let rows := (tableRowNodes t).filterMap (processRow .team raceId url)
    ([], rows, { race_id := raceId, url := url, table_index := some idx,
                 table_type := "team", row_count := rows.length })

/-- The result of `extract_table_data`: the `{"individual": ..., "team":
...}` dict and the metadata DataFrame. -/
structure GenResult where
  individual : List RowData
  team : List RowData
  meta : List MetaRow
deriving Repr, DecidableEq

/-- `extract_table_data`: the robust class-attribute-driven extractor.  One
metadata row per table; a single document-level `no_tables` row when the
document has no tables. -/
def extract_table_data (page : List Node) (url : String) : GenResult :=
  let raceId := extract_race_id url
  let tables := findAllTag page "table"
  if tables.isEmpty then
    { individual := [], team := [],
      meta := [{ race_id := raceId, url := url, table_index := none,
                 table_type := "no_tables", row_count := 0 }] }
  else
    let per := tables.enum.map (fun p => processTable raceId url (p.1 + 1) p.2)
    { individual := (per.map (·.1)).flatten,
      team := (per.map (·.2.1)).flatten,
      meta := per.map (·.2.2) }

/-! ### Dispatcher -/

inductive Dialect where
  | cole
  | katie
  | max
  | adam
deriving Repr, DecidableEq

def Dialect.pyName : Dialect → String
  | .cole => "cole"
  | .katie => "katie"
  | .max => "max"
  | .adam => "adam"

/-- The `scores` dict, in its insertion order, holding the binary64
detector values the program stores. -/
def scoresList (page : List Node) : List (Dialect × ℚ) :=
  [(.cole, detect_cole_f page), (.katie, detect_katie_f page),
   (.max, detect_max_f page), (.adam, detect_adam_f page)]

/-- `max(scores, key=scores.get)`: scan the items, keeping the current best
unless a strictly larger score appears — the first key attaining the
maximum wins.  The scores are exactly-represented doubles, so rational
`>` here is the program's float `>`: in particular two entries tie exactly
when their binary64 values are equal, not when their exact sums are. -/
def argmaxFirst : List (Dialect × ℚ) → Dialect × ℚ → Dialect × ℚ
  | [], b => b
  | (d, s) :: t, b => argmaxFirst t (if s > b.2 then (d, s) else b)

def bestPair (page : List Node) : Dialect × ℚ :=
  argmaxFirst (scoresList page) (.cole, detect_cole_f page)

def bestDialect (page : List Node) : Dialect := (bestPair page).1

def bestScore (page : List Node) : ℚ := (bestPair page).2

/-- The `0.70` the routing chain compares against, as the binary64 value of
that literal (the comparison `score >= 0.70` is a double comparison). -/
def THRESHOLD : ℚ := flit 7 10

/-- Which arm of the `if best == ... and score >= 0.70` chain runs. -/
inductive Branch where
  | coleB
  | maxB
  | adamB
  | fallbackB
deriving Repr, DecidableEq

def dispatchBranch (page : List Node) : Branch :=
  if bestDialect page = .cole ∧ bestScore page ≥ THRESHOLD then .coleB
  else if bestDialect page = .max ∧ bestScore page ≥ THRESHOLD then .maxB
  else if bestDialect page = .adam ∧ bestScore page ≥ THRESHOLD then .adamB
  else .fallbackB

/-- The individual table of a dispatch result (rows of whichever wrangler
ran). -/
inductive IndivTable where
  | coleRows (rows : List ColeRow)
  | maxRows (rows : List MaxRow)
  | tableRows (rows : List RowData)
deriving Repr, DecidableEq

def IndivTable.size : IndivTable → Nat
  | .coleRows rs => rs.length
  | .maxRows rs => rs.length
  | .tableRows rs => rs.length

/-- The value returned by `extract_table_data_wrapped`: the data dict, the
metadata DataFrame, and the error log entry printed on the recovery path
(dialect name and fault). -/
structure FinalResult where
  individual : IndivTable
  team : List RowData
  meta : List MetaRow
  errorLog : Option (Dialect × String) := none
deriving Repr, DecidableEq

abbrev Fault := String

def setAssigned (lbl : String) (m : MetaRow) : MetaRow :=
  { m with assignedParser := some lbl }

/-- `extract_table_data_wrapped`, with the callees of the `try` block passed
in as possibly-faulting functions (`Except Fault`): Python's dynamic
exceptions are modelled by quantifying over the callees' fault behaviour.
The concrete `extract_table_data_wrapped` below instantiates them with the
never-faulting embeddings of `wrangle_cole`, `wrangle_max`, and
`extract_table_data`.  On a fault the dispatcher logs the offending dialect
and the fault, re-runs `extract_table_data`, and labels the metadata
`katie_fallback_error`. -/
def extract_table_data_wrapped_gen
    (wCole : List Node → String → Except Fault (List ColeRow))
    (wMax : List Node → String → Except Fault (List MaxRow × List RowData))
    (gTab : List Node → String → Except Fault GenResult)
    (page : List Node) (url : String) : Except Fault FinalResult :=
  let raceId := extract_race_id url
  let best := bestDialect page
  let score := bestScore page
  let attempt : Except Fault FinalResult :=
    match dispatchBranch page with
    | .coleB =>
      match wCole page url with
      | .error f => .error f
      | .ok ind =>
        .ok { individual := .coleRows ind, team := [],
              meta := [{ race_id := raceId, url := url, table_index := none,
                         table_type := best.pyName, row_count := ind.length,
                         assignedParser := some best.pyName,
                         detector_score := some score }] }
    | .maxB =>
      match wMax page url with
      | .error f => .error f
      | .ok (ind, tm) =>
        .ok { individual := .maxRows ind, team := tm,
              meta := [{ race_id := raceId, url := url, table_index := none,
                         table_type := best.pyName,
                         row_count := ind.length + tm.length,
                         assignedParser := some best.pyName,
                         detector_score := some score }] }
    | .adamB =>
      match gTab page url with
      | .error f => .error f
      | .ok r =>
        .ok { individual := .tableRows r.individual, team := r.team,
              meta := r.meta.map (setAssigned "adam") }
    | .fallbackB =>
      match gTab page url with
      | .error f => .error f
      | .ok r =>
        .ok { individual := .tableRows r.individual, team := r.team,
              meta := r.meta.map (setAssigned "katie_fallback") }
  match attempt with
  | .ok r => .ok r
  | .error f =>
    match gTab page url with
    | .ok r =>
      .ok { individual := .tableRows r.individual, team := r.team,
            meta := r.meta.map (setAssigned "katie_fallback_error"),
            errorLog := some (best, f) }
    | .error f2 => .error f2

/-- The concrete dispatcher of the source. -/
def extract_table_data_wrapped (page : List Node) (url : String) :
    Except Fault FinalResult :=
  extract_table_data_wrapped_gen
    (fun p u => .ok (wrangle_cole p u))
    (fun p u => .ok (wrangle_max p u))
    (fun p u => .ok (extract_table_data p u))
    page url

/-- The score the page got for a given dialect — `scores[d]`, the binary64
value the dict holds. -/
def scoreOf (page : List Node) : Dialect → ℚ
  | .cole => detect_cole_f page
  | .katie => detect_katie_f page
  | .max => detect_max_f page
  | .adam => detect_adam_f page

/-! ### Concrete sample documents used to instantiate the theorems -/

def tdcell (cls txt : String) : Node := Node.elem "td" none [cls] none [Node.text txt]

def tdplain (txt : String) : Node := Node.elem "td" none [] none [Node.text txt]

def thplain (txt : String) : Node := Node.elem "th" none [] none [Node.text txt]

def trow (cells : List Node) : Node := Node.elem "tr" none [] none cells

/-- A `div#meetResultsBody` wrapping a single `pre` text block. -/
def prePage (t : String) : List Node :=
  [Node.elem "div" (some "meetResultsBody") [] none
    [Node.elem "pre" none [] none [Node.text t]]]

/-- A `pre` text on which `detect_cole` scores exactly `0.7` (five
numeric-grade records, no time tokens, no FR/SO/JR/SR tokens) while every
other detector scores `0`. -/
def coleWinText : String := "1 Aa Bb 3 X 2 Cc Dd 4 X 3 Ee Ff 5 X 4 Gg Hh 6 X 5 Ii Jj 7 X"

def pageColeWin : List Node := prePage coleWinText

/-- A `pre` text with four FR/SO/JR/SR codes and eight time tokens:
`detect_max` scores `0.5 + 0.2 = 0.7`. -/
def maxWinText : String :=
  "1 Al Bo FR Wood 5:11 15:18 3 2 Cy Dee JR Oak 5:20 15:40 5 3 Ed Fo SO Pine 5:30 16:01 7 4 Gus Ho SR Elm 5:40 16:22 9"

def pageMaxWin : List Node := prePage maxWinText

/-- A table whose cells carry five of the Katie header classes:
`detect_katie` scores `0.7` and wins, with every other detector at `0`. -/
def pageKatieWin : List Node :=
  [Node.elem "table" none [] none
    [trow [tdcell "place" "1", tdcell "video" "v", tdcell "athlete" "John Smith",
           tdcell "grade" "10", tdcell "team" "Central"]]]

/-- A `meetResultsBody` table whose first row spells the five adam headers:
the dispatcher's `detect_adam` scores `0.3 + 0.5 = 0.8` and wins. -/
def pageAdamWin : List Node :=
  [Node.elem "div" (some "meetResultsBody") [] none
    [Node.elem "table" none [] none
      [trow [tdplain "Place", tdplain "Athlete", tdplain "Grade", tdplain "School",
             tdplain "Time"],
       trow [tdplain "1", tdplain "Jo Li", tdplain "9", tdplain "Oak",
             tdplain "16:02"]]]]

/-- A classified individual table whose only row has place `"0"`: accepted
by the generic extractor although `0` is not a positive integer. -/
def pageRowZero : List Node :=
  [Node.elem "table" none [] none
    [trow [tdcell "place" "0", tdcell "athlete" "Ann Oh", tdcell "finish" "1:00"]]]

def urlRowZero : String := "http://x/results/123/"

/-- The row the generic extractor accepts from `pageRowZero`. -/
def rowZeroAccepted : RowData :=
  { race_id := some "123", race_url := urlRowZero,
    fields := [("place", "0"), ("athlete", "Ann Oh"), ("finish", "1:00")] }

/-- The milesplit header landmark chain of `detect_adam.py` — `article >
header > form#frmMeetResultsDetailFilter > select#ddResultsPage` with an
`option` — on a page with no `meetResultsBody` container anywhere. -/
def pageHeaderNoBody : List Node :=
  [Node.elem "article" none [] none
    [Node.elem "header" none [] none
      [Node.elem "form" (some "frmMeetResultsDetailFilter") [] none
        [Node.elem "select" (some "ddResultsPage") [] none
          [Node.elem "option" none [] none []]]]]]

/-- Three well-formed cole lines: the line-based pass matches all three. -/
def coleLines3Text : String :=
  "1 9 Jane Doe 12:46.8 Lincoln\n2 9 Bob Roe 12:50.0 Central\n3 8 Cy Fox 12:55.5 Mercer"

def pageColeLines3 : List Node := prePage coleLines3Text

/-- Two records packed on a single line with `N.` anchors: no line matches
the line pattern, and the packed-text fallback finds both records. -/
def colePacked2Text : String :=
  "1. 9 Jane Doe 12:46.8 Lincoln 2. 8 Bob Roe 13:00.1 Central"

def pageColePacked2 : List Node := prePage colePacked2Text

/-- A `pre` text stacking cole's three signals (six numeric-grade records,
eleven time tokens, five indented place markers): the unclamped sum reaches
`0.7 + 0.2 + 0.15 = 1.05 > 1`. -/
def coleStackText : String :=
  "1 Aa Bb 3 t 12:01 12:02\n 2 Cc Dd 4 t 12:03 12:04\n 3 Ee Ff 5 t 12:05 12:06\n 4 Gg Hh 6 t 12:07 12:08\n 5 Ii Jj 7 t 12:09 12:10\n 6 Kk Ll 8 t"

def pageColeStack : List Node := prePage coleStackText

/-- A `pre` text stacking max's three signals (eight FR/SO/JR/SR codes,
five time tokens, a `Team Scores` marker) with no numeric-grade penalty:
the unclamped sum reaches `0.7 + 0.2 + 0.15 = 1.05 > 1`. -/
def maxStackText : String :=
  "Team Scores 1 Al Po FR Wood 10:01 2 Cy Qu SO Oak 10:02 3 Ed Ru JR Pine 10:03 4 Gus Su SR Elm 10:04 5 Hal Tu FR Ash 10:05 6 Ian Uv SO Fir 7 Jay Vo JR Oakes 8 Kel Wu SR Elms"

def pageMaxStack : List Node := prePage maxStackText

/-- Eight FR/SO/JR/SR codes and five times, no `Team Scores` marker:
max's exact sum is `0.7 + 0.2 = 0.9`. -/
def maxNinetyText : String :=
  "1 Al Po FR Wood 10:01 2 Cy Qu SO Oak 10:02 3 Ed Ru JR Pine 10:03 4 Gus Su SR Elm 10:04 5 Hal Tu FR Ash 10:05 6 Ian Uv SO Fir 7 Jay Vo JR Oakes 8 Kel Wu SR Elms"

def adamNinetyRow : Node :=
  trow [tdplain "1", tdplain "Jo Li", tdplain "9", tdplain "Oak", tdplain "16:02"]

/-- A page on which max's and adam's exact score sums coincide (both
`0.9`) but the binary64 values the program computes differ: max's
`0.7 + 0.2` rounds to the double just below `0.9` while adam's
`0.3 + 0.5 + 0.1` rounds to the double nearest `0.9`, so the program's
float argmax selects adam.  The `meetResultsBody` holds a `pre` with eight
FR/SO/JR/SR codes and five times (max `0.7 + 0.2`) and a table spelling
the five adam headers over five data rows (adam `0.3 + 0.5 + 0.1`). -/
def pageFloatTie : List Node :=
  [Node.elem "div" (some "meetResultsBody") [] none
    [Node.elem "pre" none [] none [Node.text maxNinetyText],
     Node.elem "table" none [] none
       [trow [tdplain "Place", tdplain "Athlete", tdplain "Grade",
              tdplain "School", tdplain "Time"],
        adamNinetyRow, adamNinetyRow, adamNinetyRow, adamNinetyRow,
        adamNinetyRow]]]

/-- A table whose `thead` spells all five adam headers. -/
def adamHeaderTable : Node :=
  Node.elem "table" none [] none
    [Node.elem "thead" none [] none
      [thplain "Place", thplain "Athlete", thplain "Grade", thplain "School",
       thplain "Time"]]

/-- A page stacking all four signals of `detect_adam.py`: the header
landmark chain (`0.2`), tables in `meetResultsBody` (`0.6`), a perfect
header overlap (`0.3`), and two candidate tables (`0.05`) — the unclamped
sum reaches `1.15 > 1`. -/
def pageAdamPyStack : List Node :=
  pageHeaderNoBody ++
  [Node.elem "div" (some "meetResultsBody") [] none
    [adamHeaderTable, adamHeaderTable]]

/-- The team table of a dispatch result (`[]` for a faulted dispatch). -/
def teamOfResult : Except Fault FinalResult → List RowData
  | .ok r => r.team
  | .error _ => []

/-- The metadata rows of a dispatch result (`[]` for a faulted dispatch). -/
def metaOfResult : Except Fault FinalResult → List MetaRow
  | .ok r => r.meta
  | .error _ => []

/-- A cole extractor that always raises, exercising the dispatcher's
fault-recovery path. -/
def coleRaises : List Node → String → Except Fault (List ColeRow) :=
  fun _ _ => .error "boom"

end MeetResults

namespace MeetResults

/-! ## Arithmetic and order helper lemmas -/

theorem ratMin_eq_min (a b : ℚ) : ratMin a b = min a b := by
  by_cases h : a ≤ b <;> simp [ratMin, min_def, h]

theorem ratMax_eq_max (a b : ℚ) : ratMax a b = max a b := by
  by_cases h : a ≤ b <;> simp [ratMax, max_def, h]

theorem interCount_le_length (req toks : List String) :
    interCount req toks ≤ req.length :=
  List.length_filter_le _ _

theorem interCount_mono {toks toks' : List String}
    (h : ∀ x, toks.contains x = true → toks'.contains x = true)
    (req : List String) :
    interCount req toks ≤ interCount req toks' := by
  unfold interCount
  induction req with
  | nil => simp
  | cons a t ih =>
    rw [List.filter_cons, List.filter_cons]
    by_cases ha : toks.contains a = true
    · rw [if_pos ha, if_pos (h a ha)]
      simpa using ih
    · rw [if_neg ha]
      split_ifs with ha'
      · exact Nat.le_succ_of_le ih
      · exact ih

theorem setInsert_keeps_contains (h x : String) (s : List String)
    (hx : s.contains x = true) : (setInsert h s).contains x = true := by
  unfold setInsert
  split_ifs with hc
  · exact hx
  · simp only [List.contains, List.elem_eq_mem, decide_eq_true_eq,
      List.mem_append] at hx ⊢
    exact Or.inl hx

theorem interCount_le_setInsert (h : String) (req toks : List String) :
    interCount req toks ≤ interCount req (setInsert h toks) :=
  interCount_mono (fun x hx => setInsert_keeps_contains h x toks hx) req

/-! ## Score-range helper lemmas -/

theorem adamRowsBonus_nonneg (ts : List Node) : 0 ≤ adamRowsBonus ts := by
  induction ts with
  | nil => decide
  | cons t ts ih =>
    simp only [adamRowsBonus]
    split_ifs
    · decide
    · decide
    · exact ih

theorem adamRowsBonus_le (ts : List Node) : adamRowsBonus ts ≤ mkRat 2 10 := by
  induction ts with
  | nil => decide
  | cons t ts ih =>
    simp only [adamRowsBonus]
    split_ifs
    · decide
    · decide
    · exact ih

theorem detect_cole_raw_nonneg (p : List Node) : 0 ≤ detect_cole_raw p := by
  unfold detect_cole_raw
  cases findMeetResultsBody p with
  | none => decide
  | some rb =>
    dsimp only
    split_ifs <;> decide

theorem detect_max_raw_nonneg (p : List Node) : 0 ≤ detect_max_raw p := by
  unfold detect_max_raw
  cases findMeetResultsBody p with
  | none => decide
  | some rb =>
    dsimp only
    split_ifs <;> decide

theorem detect_adam_raw_nonneg (p : List Node) : 0 ≤ detect_adam_raw p := by
  unfold detect_adam_raw
  cases findMeetResultsBody p with
  | none => decide
  | some container =>
    dsimp only
    split_ifs <;>
      first
        | decide
        | · have hb := adamRowsBonus_nonneg
              (container.descendants.filter (Node.isTag "table"))
            simp only [Rat.mkRat_eq_div] at hb ⊢
            linarith

theorem detect_adam_raw_le_one (p : List Node) : detect_adam_raw p ≤ 1 := by
  unfold detect_adam_raw
  cases findMeetResultsBody p with
  | none => decide
  | some container =>
    dsimp only
    have hb := adamRowsBonus_le (container.descendants.filter (Node.isTag "table"))
    simp only [Rat.mkRat_eq_div] at hb
    split_ifs <;>
      first
        | decide
        | · simp only [Rat.mkRat_eq_div]
            linarith

theorem detect_katie_raw_nonneg (p : List Node) : 0 ≤ detect_katie_raw p := by
  unfold detect_katie_raw
  dsimp only
  split_ifs <;> decide

theorem detect_katie_raw_le_one (p : List Node) : detect_katie_raw p ≤ 1 := by
  unfold detect_katie_raw
  dsimp only
  split_ifs <;> decide

end MeetResults

namespace DetectAdam

open MeetResults

theorem headerOverlapRatio_nonneg (toks : List String) :
    0 ≤ headerOverlapRatio toks := by
  unfold headerOverlapRatio
  rw [Rat.mkRat_eq_div]
  positivity

theorem headerOverlapRatio_le_one (toks : List String) :
    headerOverlapRatio toks ≤ 1 := by
  unfold headerOverlapRatio
  rw [Rat.mkRat_eq_div]
  have h := interCount_le_length REQUIRED_HEADERS_ADAM toks
  have hlen : REQUIRED_HEADERS_ADAM.length = 5 := rfl
  rw [hlen] at h
  rw [div_le_one (by norm_num [hlen])]
  rw [hlen]
  exact_mod_cast le_trans h (by norm_num)

theorem qBestLoop_nonneg (hs : List (List String)) (b : ℚ) (hb : 0 ≤ b) :
    0 ≤ qBestLoop hs b := by
  induction hs generalizing b with
  | nil => simpa [qBestLoop] using hb
  | cons toks rest ih =>
    simp only [qBestLoop]
    split_ifs with h1 h2
    · rw [h2]
      exact zero_le_one
    · exact ih _ (by rw [ratMax_eq_max]; exact le_max_of_le_left hb)
    · exact ih _ hb

theorem qBestLoop_le_one (hs : List (List String)) (b : ℚ) (hb : b ≤ 1) :
    qBestLoop hs b ≤ 1 := by
  induction hs generalizing b with
  | nil => simpa [qBestLoop] using hb
  | cons toks rest ih =>
    simp only [qBestLoop]
    split_ifs with h1 h2
    · rw [h2]
    · exact ih _ (by
        rw [ratMax_eq_max]
        exact max_le hb (headerOverlapRatio_le_one toks))
    · exact ih _ hb

theorem detect_adam_py_raw_nonneg (p : List Node) : 0 ≤ detect_adam_raw p := by
  unfold detect_adam_raw
  dsimp only
  have hq1 := qBestLoop_nonneg
    ((findMeetresultsTables p).map headerTokensForTable) 0 le_rfl
  have hq2 := qBestLoop_nonneg
    ((((findMeetresultsTables p).filter tableLooksLikeResults)).map
      headerTokensForTable) 0 le_rfl
  split_ifs <;>
    · try simp only [W_STRUCTURE, W_STRONG, W_HEADERS, W_TABLECOUNT, Rat.mkRat_eq_div]
      linarith [hq1, hq2]

theorem foldl_ratio_max_one (hs : List (List String)) :
    hs.foldl (fun acc toks => max acc (headerOverlapRatio toks)) 1 = 1 := by
  induction hs with
  | nil => rfl
  | cons h t ih =>
    simp only [List.foldl_cons]
    rw [max_eq_left (headerOverlapRatio_le_one h)]
    exact ih

theorem qBestLoop_eq_foldl (hs : List (List String)) (b : ℚ)
    (hb0 : 0 ≤ b) (hb1 : b ≤ 1) :
    qBestLoop hs b =
      hs.foldl (fun acc toks => max acc (headerOverlapRatio toks)) b := by
  induction hs generalizing b with
  | nil => simp [qBestLoop]
  | cons toks rest ih =>
    simp only [qBestLoop, List.foldl_cons]
    split_ifs with h1 h2
    · rw [ratMax_eq_max] at h2
      rw [ratMax_eq_max, h2]
      exact (foldl_ratio_max_one rest).symm
    · rw [ratMax_eq_max] at h2 ⊢
      exact ih _ (le_max_of_le_left hb0)
        (max_le hb1 (headerOverlapRatio_le_one toks))
    · have hz : headerOverlapRatio toks = 0 := by
        unfold headerOverlapRatio
        rw [not_ne_iff.mp h1]
        simp [Rat.mkRat_eq_div]
      rw [hz, max_eq_left hb0]
      exact ih b hb0 hb1

end DetectAdam

namespace MeetResults

theorem natBestLoop_eq_foldl (ms : List Nat) (b : Nat) :
    natBestLoop ms b = ms.foldl max b := by
  induction ms generalizing b with
  | nil => rfl
  | cons m t ih =>
    simp only [natBestLoop, List.foldl_cons]
    exact ih _

theorem ratMin_unit (a : ℚ) (ha : 0 ≤ a) :
    0 ≤ ratMin a 1 ∧ ratMin a 1 ≤ 1 ∧ ratMin a 1 = min a 1 := by
  rw [ratMin_eq_min]
  exact ⟨le_min ha zero_le_one, min_le_right _ _, rfl⟩

/-- C4: every detector — `detect_cole`, `detect_max`, `detect_adam` and
`detect_katie` of the dispatcher module, and the standalone
`detect_adam.py` — returns a score in `[0, 1]` on every document, and each
returned score is exactly `min raw 1` where `raw` is the corresponding
unclamped weighted-signal sum: the clamp is applied once, after summing,
never to the individual signals. -/
theorem c4_detector_scores_unit_interval (p : List Node) :
    (0 ≤ detect_cole p ∧ detect_cole p ≤ 1 ∧
      detect_cole p = min (detect_cole_raw p) 1) ∧
    (0 ≤ detect_max p ∧ detect_max p ≤ 1 ∧
      detect_max p = min (detect_max_raw p) 1) ∧
    (0 ≤ detect_adam p ∧ detect_adam p ≤ 1 ∧
      detect_adam p = min (detect_adam_raw p) 1) ∧
    (0 ≤ detect_katie p ∧ detect_katie p ≤ 1 ∧
      detect_katie p = min (detect_katie_raw p) 1) ∧
    (0 ≤ DetectAdam.detect_adam p ∧ DetectAdam.detect_adam p ≤ 1 ∧
      DetectAdam.detect_adam p = min (DetectAdam.detect_adam_raw p) 1) :=
  ⟨ratMin_unit _ (detect_cole_raw_nonneg p),
   ratMin_unit _ (detect_max_raw_nonneg p),
   ratMin_unit _ (detect_adam_raw_nonneg p),
   ratMin_unit _ (detect_katie_raw_nonneg p),
   ratMin_unit _ (DetectAdam.detect_adam_py_raw_nonneg p)⟩

/-- C3 counterexample: the claim's own example fails — the four weights of
the standalone adam detector (`detect_adam.py`) sum to `1.15`, which
exceeds `1.0`. -/
theorem c3_adam_weight_sum_counterexample :
    DetectAdam.W_STRUCTURE + DetectAdam.W_STRONG + DetectAdam.W_HEADERS +
        DetectAdam.W_TABLECOUNT = 23/20 ∧
    ¬(DetectAdam.W_STRUCTURE + DetectAdam.W_STRONG + DetectAdam.W_HEADERS +
        DetectAdam.W_TABLECOUNT ≤ 1) := by
  constructor <;> decide

/-- C3 amended: the per-signal weights sum to at most `1.0` only for the
dispatcher module's adam and katie detectors; the standalone adam
detector's weights sum to `1.15`, and the cole and max detectors each
accumulate `0.7 + 0.2 + 0.15 = 1.05` on a concrete page, so unclamped
scores exceeding `1` are reachable and only the final clamp enforces the
`[0, 1]` range. -/
theorem c3_weight_budget_amended :
    (DetectAdam.W_STRUCTURE + DetectAdam.W_STRONG + DetectAdam.W_HEADERS +
        DetectAdam.W_TABLECOUNT = 23/20) ∧
    (1 < DetectAdam.detect_adam_raw pageAdamPyStack) ∧
    (1 < detect_cole_raw pageColeStack) ∧
    (detect_cole_raw pageColeStack = mkRat 21 20) ∧
    (1 < detect_max_raw pageMaxStack) ∧
    (detect_max_raw pageMaxStack = mkRat 21 20) ∧
    (∀ p, detect_adam_raw p ≤ 1) ∧
    (∀ p, detect_katie_raw p ≤ 1) :=
  ⟨by decide, by decide, by decide, by decide, by decide, by decide,
   detect_adam_raw_le_one, detect_katie_raw_le_one⟩

/-- C2 (amended): when no element of the page has id or class
`meetResultsBody`, the dispatcher module's cole, max and adam detectors
all return exactly `0.0`; the standalone `detect_adam.py` returns `0.0`
only when the milesplit header landmark chain is also absent, and returns
`W_STRUCTURE = 0.2` when that chain is present despite the missing
container. -/
theorem c2_landmark_short_circuit_amended (p : List Node)
    (hid : firstWithId p "meetResultsBody" = none)
    (hcls : firstWithClass p "meetResultsBody" = none) :
    detect_cole p = 0 ∧ detect_max p = 0 ∧ detect_adam p = 0 ∧
    (DetectAdam.hasMilesplitResultsHeaderStructure p = false →
      DetectAdam.detect_adam p = 0) ∧
    (DetectAdam.hasMilesplitResultsHeaderStructure p = true →
      DetectAdam.detect_adam p = DetectAdam.W_STRUCTURE) := by
  have hb : findMeetResultsBody p = none := by
    unfold findMeetResultsBody
    rw [hid, hcls]
  have htab : DetectAdam.findMeetresultsTables p = [] := by
    unfold DetectAdam.findMeetresultsTables
    rw [hid]
  have hraw : DetectAdam.detect_adam_raw p =
      (if DetectAdam.hasMilesplitResultsHeaderStructure p
        then DetectAdam.W_STRUCTURE else 0) := by
    unfold DetectAdam.detect_adam_raw
    dsimp only
    rw [htab]
    simp
  refine ⟨?_, ?_, ?_, ?_, ?_⟩
  · unfold detect_cole detect_cole_raw
    rw [hb]
    decide
  · unfold detect_max detect_max_raw
    rw [hb]
    decide
  · unfold detect_adam detect_adam_raw
    rw [hb]
    decide
  · intro hs
    unfold DetectAdam.detect_adam
    rw [hraw, hs]
    decide
  · intro hs
    unfold DetectAdam.detect_adam
    rw [hraw, hs]
    decide

/-- Witness for C2 (amended): on the concrete header-chain page the
standalone detector returns `0.2` while `detect_cole` returns `0`, and on
the empty document both return `0`. -/
theorem c2_landmark_short_circuit_amended_witness :
    detect_cole pageHeaderNoBody = 0 ∧
    DetectAdam.detect_adam pageHeaderNoBody = DetectAdam.W_STRUCTURE ∧
    detect_cole ([] : List Node) = 0 ∧
    DetectAdam.detect_adam ([] : List Node) = 0 :=
  ⟨(c2_landmark_short_circuit_amended pageHeaderNoBody rfl rfl).1,
   (c2_landmark_short_circuit_amended pageHeaderNoBody rfl rfl).2.2.2.2 (by decide),
   (c2_landmark_short_circuit_amended [] rfl rfl).1,
   (c2_landmark_short_circuit_amended [] rfl rfl).2.2.2.1 (by decide)⟩

/-- C2 counterexample: `pageHeaderNoBody` has no `meetResultsBody` element
(by id or class) — the landmark of the cole, max and adam detectors — yet
`detect_adam.py`'s detector returns `0.2`, not exactly `0.0`, because its
early return passes along the already-accumulated structure bonus. -/
theorem c2_adam_landmark_counterexample :
    firstWithId pageHeaderNoBody "meetResultsBody" = none ∧
    firstWithClass pageHeaderNoBody "meetResultsBody" = none ∧
    DetectAdam.detect_adam pageHeaderNoBody = mkRat 2 10 ∧
    (mkRat 2 10 : ℚ) ≠ 0 :=
  ⟨rfl, rfl, by decide, by decide⟩

/-- C6: both adam revisions score headers by a best-of rule and the
per-table contribution is monotone.  (1) `detect_adam.py`'s scoring loop
(with its early exit) equals the running maximum of the per-table
header-overlap ratios; (2) that ratio cannot decrease when one more header
token is added to a table's token set; (3) the dispatcher module's
`best_header_match` loop is the running maximum of the per-table match
counts; (4) the match count cannot decrease when one more header text is
added. -/
theorem c6_header_best_of_monotone :
    (∀ hs : List (List String),
        DetectAdam.qBestLoop hs 0 =
          hs.foldl (fun acc toks => max acc (DetectAdam.headerOverlapRatio toks)) 0) ∧
    (∀ (h : String) (toks : List String),
        DetectAdam.headerOverlapRatio toks ≤
          DetectAdam.headerOverlapRatio (setInsert h toks)) ∧
    (∀ ms : List Nat, natBestLoop ms 0 = ms.foldl max 0) ∧
    (∀ (h : String) (texts : List String),
        interCount REQUIRED_HEADERS_ADAM texts ≤
          interCount REQUIRED_HEADERS_ADAM (setInsert h texts)) := by
  refine ⟨fun hs => DetectAdam.qBestLoop_eq_foldl hs 0 le_rfl zero_le_one,
    ?_, fun ms => natBestLoop_eq_foldl ms 0,
    fun h texts => interCount_le_setInsert h _ texts⟩
  intro h toks
  unfold DetectAdam.headerOverlapRatio
  rw [Rat.mkRat_eq_div, Rat.mkRat_eq_div]
  gcongr
  exact interCount_le_setInsert h _ toks

end MeetResults

namespace MeetResults

/-! ## Row-acceptance lemmas for the generic table extractor -/

theorem processRow_indiv_accept {rid : Option String} {u : String} {row : Node}
    {r : RowData} (h : processRow .individual rid u row = some r) :
    acceptIndivRow r = true := by
  unfold processRow at h
  dsimp only at h
  split_ifs at h <;>
    first
      | exact Option.noConfusion h
      | (injection h with hr; subst hr; assumption)
      | simp_all

theorem processRow_team_accept {rid : Option String} {u : String} {row : Node}
    {r : RowData} (h : processRow .team rid u row = some r) :
    acceptTeamRow r = true := by
  unfold processRow at h
  dsimp only at h
  split_ifs at h <;>
    first
      | exact Option.noConfusion h
      | (injection h with hr; subst hr; assumption)
      | simp_all

theorem processTable_indiv_mem {rid : Option String} {u : String} {idx : Nat}
    {t : Node} {r : RowData} (h : r ∈ (processTable rid u idx t).1) :
    acceptIndivRow r = true := by
  unfold processTable at h
  cases hc : classifyTable t with
  | unknown => rw [hc] at h; simp at h
  | individual =>
    rw [hc] at h
    dsimp only at h
    rw [List.mem_filterMap] at h
    obtain ⟨row, _, hrow⟩ := h
    exact processRow_indiv_accept hrow
  | team => rw [hc] at h; simp at h

theorem processTable_team_mem {rid : Option String} {u : String} {idx : Nat}
    {t : Node} {r : RowData} (h : r ∈ (processTable rid u idx t).2.1) :
    acceptTeamRow r = true := by
  unfold processTable at h
  cases hc : classifyTable t with
  | unknown => rw [hc] at h; simp at h
  | individual => rw [hc] at h; simp at h
  | team =>
    rw [hc] at h
    dsimp only at h
    rw [List.mem_filterMap] at h
    obtain ⟨row, _, hrow⟩ := h
    exact processRow_team_accept hrow

theorem extract_indiv_accept {p : List Node} {u : String} {r : RowData}
    (hr : r ∈ (extract_table_data p u).individual) : acceptIndivRow r = true := by
  unfold extract_table_data at hr
  dsimp only at hr
  split_ifs at hr with h1
  · simp at hr
  · simp only [List.mem_flatten, List.mem_map] at hr
    obtain ⟨l, ⟨trip, ⟨q, hq, htrip⟩, hl⟩, hrl⟩ := hr
    subst htrip
    subst hl
    exact processTable_indiv_mem hrl

theorem extract_team_accept {p : List Node} {u : String} {r : RowData}
    (hr : r ∈ (extract_table_data p u).team) : acceptTeamRow r = true := by
  unfold extract_table_data at hr
  dsimp only at hr
  split_ifs at hr with h1
  · simp at hr
  · simp only [List.mem_flatten, List.mem_map] at hr
    obtain ⟨l, ⟨trip, ⟨q, hq, htrip⟩, hl⟩, hrl⟩ := hr
    subst htrip
    subst hl
    exact processTable_team_mem hrl

/-- C5 (amended): every row the generic/class-based extractor accepts into
the individual table has a place that is a nonempty digit string (after
stripping) and has both an athlete and a finish field present, and every
accepted team row has a digit-string place.  (The digit-string test admits
`"0"`, which does not parse as a *positive* integer — see the
counterexample — so "positive" is weakened to "nonnegative".) -/
theorem c5_row_acceptance_amended (p : List Node) (u : String) :
    (∀ r ∈ (extract_table_data p u).individual,
        isDigitString (pyStrip ((r.get "place").getD "")) = true ∧
        (r.get "athlete").isSome = true ∧ (r.get "finish").isSome = true) ∧
    (∀ r ∈ (extract_table_data p u).team,
        isDigitString (pyStrip ((r.get "place").getD "")) = true) := by
  constructor
  · intro r hr
    have hacc := extract_indiv_accept hr
    simp only [acceptIndivRow, Bool.and_eq_true] at hacc
    exact ⟨hacc.1.1, hacc.1.2, hacc.2⟩
  · intro r hr
    exact extract_team_accept hr

/-- Witness for C5 (amended): the acceptance invariant evaluated at the
concrete row extracted from `pageRowZero`. -/
theorem c5_row_acceptance_amended_witness :
    isDigitString (pyStrip ((rowZeroAccepted.get "place").getD "")) = true ∧
    (rowZeroAccepted.get "athlete").isSome = true ∧
    (rowZeroAccepted.get "finish").isSome = true :=
  (c5_row_acceptance_amended pageRowZero urlRowZero).1 rowZeroAccepted (by decide)

/-- C5 counterexample: the generic extractor accepts an individual row
whose place field is `"0"` (the acceptance regex is `^\d+$`), and `"0"`
parses as the integer `0`, which is not a positive integer — refuting
"place ... parses as a positive integer". -/
theorem c5_place_zero_counterexample :
    (extract_table_data pageRowZero urlRowZero).individual = [rowZeroAccepted] ∧
    rowZeroAccepted.get "place" = some "0" ∧
    pyInt "0" = 0 :=
  ⟨by decide, by decide, rfl⟩

/-- C7: `wrangle_cole` first parses the `pre` block line by line with the
position-sensitive record pattern (leading place number, optional grade,
name, duration token, optional trailing tag, team name — `coleLineRE`),
and falls back to packed-text parsing over the whitespace-normalized whole
block (`colePackedRows`, whose repeating pattern anchors each record at
the next place-number-with-dot and ends it at the following record or end
of text) exactly when fewer than 3 lines match. -/
theorem c7_cole_line_then_packed (p : List Node) (u : String) (dv pre : Node)
    (hdv : findResultsDiv p = some dv)
    (hpre : dv.descendants.find? (Node.isTag "pre") = some pre) :
    (3 ≤ (coleLineRows (pre.getText "\n")).length →
      wrangle_cole p u = coleLineRows (pre.getText "\n")) ∧
    ((coleLineRows (pre.getText "\n")).length < 3 →
      wrangle_cole p u = colePackedRows (pre.getText "\n")) := by
  unfold wrangle_cole
  rw [hdv]
  dsimp only
  rw [hpre]
  dsimp only
  constructor
  · intro h
    rw [if_pos h]
  · intro h
    rw [if_neg (by omega)]

/-- Witness for C7: a three-line block parses line-based; a packed
single-line block fails line parsing (0 matching lines) and yields two
records through the packed-text fallback. -/
theorem c7_cole_line_then_packed_witness :
    wrangle_cole pageColeLines3 "u" = coleLineRows coleLines3Text ∧
    wrangle_cole pageColePacked2 "u" = colePackedRows colePacked2Text ∧
    (coleLineRows coleLines3Text).length = 3 ∧
    (coleLineRows colePacked2Text).length = 0 ∧
    (colePackedRows colePacked2Text).length = 2 :=
  ⟨(c7_cole_line_then_packed pageColeLines3 "u" _ _ rfl rfl).1 (by decide),
   (c7_cole_line_then_packed pageColePacked2 "u" _ _ rfl rfl).2 (by decide),
   by decide, by decide, by decide⟩

end MeetResults

namespace MeetResults

/-! ## Dispatcher lemmas -/

theorem bestPair_argmax (p : List Node) :
    scoreOf p (bestPair p).1 = (bestPair p).2 ∧
    ∀ d, scoreOf p d ≤ (bestPair p).2 := by
  unfold bestPair scoresList
  simp only [argmaxFirst, gt_iff_lt, lt_self_iff_false, if_false]
  split_ifs <;>
    · refine ⟨rfl, ?_⟩
      intro d
      cases d <;> simp only [scoreOf] <;> linarith

theorem wrapped_branch_cole (p : List Node) (u : String)
    (hb : dispatchBranch p = .coleB) :
    extract_table_data_wrapped p u = .ok
      { individual := .coleRows (wrangle_cole p u), team := [],
        meta := [{ race_id := extract_race_id u, url := u, table_index := none,
                   table_type := (bestDialect p).pyName,
                   row_count := (wrangle_cole p u).length,
                   assignedParser := some (bestDialect p).pyName,
                   detector_score := some (bestScore p) }],
        errorLog := none } := by
  unfold extract_table_data_wrapped extract_table_data_wrapped_gen
  dsimp only
  rw [hb]

theorem wrapped_branch_max (p : List Node) (u : String)
    (hb : dispatchBranch p = .maxB) :
    extract_table_data_wrapped p u = .ok
      { individual := .maxRows (wrangle_max p u).1, team := (wrangle_max p u).2,
        meta := [{ race_id := extract_race_id u, url := u, table_index := none,
                   table_type := (bestDialect p).pyName,
                   row_count := (wrangle_max p u).1.length + (wrangle_max p u).2.length,
                   assignedParser := some (bestDialect p).pyName,
                   detector_score := some (bestScore p) }],
        errorLog := none } := by
  unfold extract_table_data_wrapped extract_table_data_wrapped_gen
  dsimp only
  rw [hb]

theorem wrapped_branch_adam (p : List Node) (u : String)
    (hb : dispatchBranch p = .adamB) :
    extract_table_data_wrapped p u = .ok
      { individual := .tableRows (extract_table_data p u).individual,
        team := (extract_table_data p u).team,
        meta := (extract_table_data p u).meta.map (setAssigned "adam"),
        errorLog := none } := by
  unfold extract_table_data_wrapped extract_table_data_wrapped_gen
  dsimp only
  rw [hb]

theorem wrapped_branch_fallback (p : List Node) (u : String)
    (hb : dispatchBranch p = .fallbackB) :
    extract_table_data_wrapped p u = .ok
      { individual := .tableRows (extract_table_data p u).individual,
        team := (extract_table_data p u).team,
        meta := (extract_table_data p u).meta.map (setAssigned "katie_fallback"),
        errorLog := none } := by
  unfold extract_table_data_wrapped extract_table_data_wrapped_gen
  dsimp only
  rw [hb]

theorem dispatch_coleB_of (p : List Node) (hd : bestDialect p = .cole)
    (hs : THRESHOLD ≤ bestScore p) : dispatchBranch p = .coleB := by
  unfold dispatchBranch
  rw [if_pos ⟨hd, hs⟩]

theorem dispatch_maxB_of (p : List Node) (hd : bestDialect p = .max)
    (hs : THRESHOLD ≤ bestScore p) : dispatchBranch p = .maxB := by
  unfold dispatchBranch
  rw [if_neg (fun hc => by rw [hd] at hc; exact Dialect.noConfusion hc.1),
    if_pos ⟨hd, hs⟩]

theorem dispatch_adamB_of (p : List Node) (hd : bestDialect p = .adam)
    (hs : THRESHOLD ≤ bestScore p) : dispatchBranch p = .adamB := by
  unfold dispatchBranch
  rw [if_neg (fun hc => by rw [hd] at hc; exact Dialect.noConfusion hc.1),
    if_neg (fun hc => by rw [hd] at hc; exact Dialect.noConfusion hc.1),
    if_pos ⟨hd, hs⟩]

theorem dispatch_fallbackB_of_low (p : List Node)
    (hs : bestScore p < THRESHOLD) : dispatchBranch p = .fallbackB := by
  unfold dispatchBranch
  rw [if_neg (fun hc => absurd hc.2 (not_le.mpr hs)),
    if_neg (fun hc => absurd hc.2 (not_le.mpr hs)),
    if_neg (fun hc => absurd hc.2 (not_le.mpr hs))]

theorem dispatch_fallbackB_of_katie (p : List Node)
    (hd : bestDialect p = .katie) : dispatchBranch p = .fallbackB := by
  unfold dispatchBranch
  rw [if_neg (fun hc => by rw [hd] at hc; exact Dialect.noConfusion hc.1),
    if_neg (fun hc => by rw [hd] at hc; exact Dialect.noConfusion hc.1),
    if_neg (fun hc => by rw [hd] at hc; exact Dialect.noConfusion hc.1)]

/-- C1 (amended): for every page the dispatcher computes all four detector
scores as binary64 doubles and selects the first dialect (dict order cole,
katie, max, adam) attaining the maximal double — so dialects tie only when
their floats are bit-equal, not when their exact sums coincide; routing is
by the boundary-inclusive `score >= 0.70` double comparison over the three
specialized arms that exist: a cole winner at or above threshold runs the
cole pre-parser, a max winner the max pre-parser, an adam winner the
robust table parser labeled `"adam"`; every other page — best score below
`0.70`, or a katie winner at any score — runs the same robust (generic,
Katie-style) table parser labeled `"katie_fallback"`. -/
theorem c1_dispatch_threshold_routing (p : List Node) (u : String) :
    (scoreOf p (bestDialect p) = bestScore p ∧ ∀ d, scoreOf p d ≤ bestScore p) ∧
    (bestDialect p = .cole → THRESHOLD ≤ bestScore p →
      extract_table_data_wrapped p u = .ok
        { individual := .coleRows (wrangle_cole p u), team := [],
          meta := [{ race_id := extract_race_id u, url := u, table_index := none,
                     table_type := "cole", row_count := (wrangle_cole p u).length,
                     assignedParser := some "cole",
                     detector_score := some (bestScore p) }],
          errorLog := none }) ∧
    (bestDialect p = .max → THRESHOLD ≤ bestScore p →
      extract_table_data_wrapped p u = .ok
        { individual := .maxRows (wrangle_max p u).1, team := (wrangle_max p u).2,
          meta := [{ race_id := extract_race_id u, url := u, table_index := none,
                     table_type := "max",
                     row_count := (wrangle_max p u).1.length + (wrangle_max p u).2.length,
                     assignedParser := some "max",
                     detector_score := some (bestScore p) }],
          errorLog := none }) ∧
    (bestDialect p = .adam → THRESHOLD ≤ bestScore p →
      extract_table_data_wrapped p u = .ok
        { individual := .tableRows (extract_table_data p u).individual,
          team := (extract_table_data p u).team,
          meta := (extract_table_data p u).meta.map (setAssigned "adam"),
          errorLog := none }) ∧
    (bestScore p < THRESHOLD →
      extract_table_data_wrapped p u = .ok
        { individual := .tableRows (extract_table_data p u).individual,
          team := (extract_table_data p u).team,
          meta := (extract_table_data p u).meta.map (setAssigned "katie_fallback"),
          errorLog := none }) ∧
    (bestDialect p = .katie →
      extract_table_data_wrapped p u = .ok
        { individual := .tableRows (extract_table_data p u).individual,
          team := (extract_table_data p u).team,
          meta := (extract_table_data p u).meta.map (setAssigned "katie_fallback"),
          errorLog := none }) := by
  refine ⟨bestPair_argmax p, ?_, ?_, ?_, ?_, ?_⟩
  · intro hd hs
    have h := wrapped_branch_cole p u (dispatch_coleB_of p hd hs)
    rw [hd] at h
    exact h
  · intro hd hs
    have h := wrapped_branch_max p u (dispatch_maxB_of p hd hs)
    rw [hd] at h
    exact h
  · intro hd hs
    exact wrapped_branch_adam p u (dispatch_adamB_of p hd hs)
  · intro hs
    exact wrapped_branch_fallback p u (dispatch_fallbackB_of_low p hs)
  · intro hd
    exact wrapped_branch_fallback p u (dispatch_fallbackB_of_katie p hd)

/-- Witness for C1 (amended): a cole winner at exactly `0.70` takes the
cole arm; the empty document (all scores `0 < 0.70`) takes the fallback
arm; the katie-winning page takes the fallback arm; and on `pageFloatTie`
— where max's and adam's exact sums are both `0.9` but their doubles
differ — the float argmax selects adam and the adam arm runs, as the
program does. -/
theorem c1_dispatch_threshold_routing_witness :
    (detect_max_raw pageFloatTie = detect_adam_raw pageFloatTie ∧
     detect_max_f pageFloatTie < detect_adam_f pageFloatTie ∧
     bestDialect pageFloatTie = .adam ∧
     extract_table_data_wrapped pageFloatTie "u" = .ok
       { individual := .tableRows (extract_table_data pageFloatTie "u").individual,
         team := (extract_table_data pageFloatTie "u").team,
         meta := (extract_table_data pageFloatTie "u").meta.map (setAssigned "adam"),
         errorLog := none }) ∧
    extract_table_data_wrapped pageColeWin "u" = .ok
      { individual := .coleRows (wrangle_cole pageColeWin "u"), team := [],
        meta := [{ race_id := extract_race_id "u", url := "u", table_index := none,
                   table_type := "cole",
                   row_count := (wrangle_cole pageColeWin "u").length,
                   assignedParser := some "cole",
                   detector_score := some (bestScore pageColeWin) }],
        errorLog := none } ∧
    extract_table_data_wrapped ([] : List Node) "u" = .ok
      { individual := .tableRows (extract_table_data ([] : List Node) "u").individual,
        team := (extract_table_data ([] : List Node) "u").team,
        meta := (extract_table_data ([] : List Node) "u").meta.map
          (setAssigned "katie_fallback"),
        errorLog := none } ∧
    extract_table_data_wrapped pageKatieWin "u" = .ok
      { individual := .tableRows (extract_table_data pageKatieWin "u").individual,
        team := (extract_table_data pageKatieWin "u").team,
        meta := (extract_table_data pageKatieWin "u").meta.map
          (setAssigned "katie_fallback"),
        errorLog := none } :=
  ⟨⟨by decide, by decide, by decide,
    (c1_dispatch_threshold_routing pageFloatTie "u").2.2.2.1 (by decide) (by decide)⟩,
   (c1_dispatch_threshold_routing pageColeWin "u").2.1 (by decide) (by decide),
   (c1_dispatch_threshold_routing ([] : List Node) "u").2.2.2.2.1 (by decide),
   (c1_dispatch_threshold_routing pageKatieWin "u").2.2.2.2.2 (by decide)⟩

/-- C1 counterexample: on `pageKatieWin` the winning dialect is katie with
score exactly `0.70` — at or above the boundary-inclusive threshold — yet
the dispatcher takes the very arm used for sub-threshold pages: the
generic table extractor labeled `"katie_fallback"` (no katie-specific
extractor is invoked; `wrangle_katie` is an unused stub).  This refutes
"when the winning score is at least 0.70 it invokes that winning dialect's
specialized extractor" read as a claim about all four dialects. -/
theorem c1_katie_winner_routed_to_fallback :
    bestDialect pageKatieWin = .katie ∧
    bestScore pageKatieWin = THRESHOLD ∧
    dispatchBranch pageKatieWin = .fallbackB ∧
    metaOfResult (extract_table_data_wrapped pageKatieWin "u") =
      (extract_table_data pageKatieWin "u").meta.map (setAssigned "katie_fallback") :=
  ⟨by decide, by decide, by decide, by decide⟩

/-- C8: if a specialized extractor raises during dispatch (modelled by
quantifying over the fault behaviour of the `try` block's callees), the
dispatcher catches the fault, records the offending dialect and fault in
the error log, re-runs the same page through the generic table extractor,
and returns that fallback result labeled `"katie_fallback_error"` instead
of propagating the fault. -/
theorem c8_extractor_fault_reroutes
    (wC : List Node → String → Except Fault (List ColeRow))
    (wM : List Node → String → Except Fault (List MaxRow × List RowData))
    (p : List Node) (u : String) (f : Fault) :
    (dispatchBranch p = .coleB → wC p u = .error f →
      extract_table_data_wrapped_gen wC wM
          (fun q v => .ok (extract_table_data q v)) p u
        = .ok { individual := .tableRows (extract_table_data p u).individual,
                team := (extract_table_data p u).team,
                meta := (extract_table_data p u).meta.map
                  (setAssigned "katie_fallback_error"),
                errorLog := some (bestDialect p, f) }) ∧
    (dispatchBranch p = .maxB → wM p u = .error f →
      extract_table_data_wrapped_gen wC wM
          (fun q v => .ok (extract_table_data q v)) p u
        = .ok { individual := .tableRows (extract_table_data p u).individual,
                team := (extract_table_data p u).team,
                meta := (extract_table_data p u).meta.map
                  (setAssigned "katie_fallback_error"),
                errorLog := some (bestDialect p, f) }) := by
  constructor
  · intro hb hw
    unfold extract_table_data_wrapped_gen
    dsimp only
    rw [hb, hw]
  · intro hb hw
    unfold extract_table_data_wrapped_gen
    dsimp only
    rw [hb, hw]

/-- Witness for C8: a raising cole extractor on the cole-winning page is
caught and rerouted to the generic extractor with the error label and the
logged dialect/fault pair. -/
theorem c8_extractor_fault_reroutes_witness :
    extract_table_data_wrapped_gen coleRaises
        (fun q v => .ok (wrangle_max q v))
        (fun q v => .ok (extract_table_data q v)) pageColeWin "u"
      = .ok { individual := .tableRows (extract_table_data pageColeWin "u").individual,
              team := (extract_table_data pageColeWin "u").team,
              meta := (extract_table_data pageColeWin "u").meta.map
                (setAssigned "katie_fallback_error"),
              errorLog := some (bestDialect pageColeWin, "boom") } :=
  (c8_extractor_fault_reroutes coleRaises
    (fun q v => .ok (wrangle_max q v)) pageColeWin "u" "boom").1 (by decide) rfl

end MeetResults

namespace MeetResults

theorem processTable_meta_unknown (rid : Option String) (u : String) (idx : Nat)
    (t : Node) :
    (processTable rid u idx t).2.2.table_type = "unknown_headers" →
    (processTable rid u idx t).2.2.row_count = 0 := by
  unfold processTable
  cases classifyTable t <;> intro h <;> simp_all

theorem extract_meta_length (p : List Node) (u : String) :
    (extract_table_data p u).meta.length = max 1 (findAllTag p "table").length := by
  unfold extract_table_data
  dsimp only
  by_cases h : (findAllTag p "table").isEmpty = true
  · rw [if_pos h]
    rw [List.isEmpty_iff] at h
    simp [h]
  · rw [if_neg h]
    have hpos : 0 < (findAllTag p "table").length := by
      rw [List.isEmpty_iff] at h
      exact List.length_pos.mpr h
    simp only [List.length_map, List.enum_length]
    omega

/-- C9: every invocation of the extraction entry point emits at least one
metadata record: the generic extractor emits one metadata row per table
scanned (tables with unknown headers are recorded with zero rows) and a
single document-level `no_tables` row when the document has no tables; the
dispatcher's specialized preformatted arms emit one summary row, and its
table arms reuse the generic extractor's per-table rows — so the wrapped
entry point's metadata is never empty. -/
theorem c9_metadata_always_emitted (p : List Node) (u : String) :
    (findAllTag p "table" = [] →
      (extract_table_data p u).meta =
        [{ race_id := extract_race_id u, url := u, table_index := none,
           table_type := "no_tables", row_count := 0 }]) ∧
    ((extract_table_data p u).meta.length = max 1 (findAllTag p "table").length) ∧
    (∀ m ∈ (extract_table_data p u).meta,
        m.table_type = "unknown_headers" → m.row_count = 0) ∧
    1 ≤ (metaOfResult (extract_table_data_wrapped p u)).length := by
  have hlen := extract_meta_length p u
  refine ⟨?_, hlen, ?_, ?_⟩
  · intro h
    unfold extract_table_data
    dsimp only
    rw [if_pos (by rw [List.isEmpty_iff]; exact h)]
  · intro m hm htype
    unfold extract_table_data at hm
    dsimp only at hm
    split_ifs at hm with h1
    · simp only [List.mem_singleton] at hm
      subst hm
      exact absurd htype ((by decide : ("no_tables" : String) ≠ "unknown_headers"))
    · simp only [List.mem_map] at hm
      obtain ⟨trip, ⟨q, hq, htrip⟩, hmm⟩ := hm
      subst htrip
      subst hmm
      exact processTable_meta_unknown _ u _ _ htype
  · have hg : 1 ≤ (extract_table_data p u).meta.length := by
      rw [hlen]; omega
    cases hbr : dispatchBranch p
    · rw [wrapped_branch_cole p u hbr]
      simp [metaOfResult]
    · rw [wrapped_branch_max p u hbr]
      simp [metaOfResult]
    · rw [wrapped_branch_adam p u hbr]
      simpa [metaOfResult] using hg
    · rw [wrapped_branch_fallback p u hbr]
      simpa [metaOfResult] using hg

/-- Witness for C9: the empty document yields the single `no_tables` row;
`pageAdamWin`'s unclassifiable table yields a zero-row `unknown_headers`
row; the wrapped dispatcher emits nonempty metadata on that page. -/
theorem c9_metadata_always_emitted_witness :
    (extract_table_data ([] : List Node) "u").meta =
      [{ race_id := extract_race_id "u", url := "u", table_index := none,
         table_type := "no_tables", row_count := 0 }] ∧
    ({ race_id := extract_race_id "u", url := "u", table_index := some 1,
       table_type := "unknown_headers", row_count := 0 } : MetaRow).row_count = 0 ∧
    1 ≤ (metaOfResult (extract_table_data_wrapped pageAdamWin "u")).length :=
  ⟨(c9_metadata_always_emitted ([] : List Node) "u").1 rfl,
   (c9_metadata_always_emitted pageAdamWin "u").2.2.1 _ (by decide) (by decide),
   (c9_metadata_always_emitted pageAdamWin "u").2.2.2⟩

/-- C10: the cole and max specialized extraction paths never produce a
team record: `wrangle_max`'s team table is always the empty DataFrame, and
the dispatcher pairs the cole arm's individual table with an empty team
table, so any page routed through the cole or max arm yields an empty team
table regardless of its content. -/
theorem c10_cole_max_paths_no_team (p : List Node) (u : String) :
    ((wrangle_max p u).2 = []) ∧
    (dispatchBranch p = .coleB →
      teamOfResult (extract_table_data_wrapped p u) = []) ∧
    (dispatchBranch p = .maxB →
      teamOfResult (extract_table_data_wrapped p u) = []) := by
  have hm : (wrangle_max p u).2 = [] := by
    unfold wrangle_max
    cases findResultsDiv p with
    | none => rfl
    | some dv =>
      dsimp only
      cases dv.descendants.find? (Node.isTag "pre") with
      | none => rfl
      | some pre => rfl
  refine ⟨hm, ?_, ?_⟩
  · intro hb
    rw [wrapped_branch_cole p u hb]
    rfl
  · intro hb
    rw [wrapped_branch_max p u hb]
    simpa [metaOfResult, teamOfResult] using hm

/-- Witness for C10: both the cole-routed page (which contains no team
data) and the max-routed page (whose text mentions nothing but athletes)
come back with an empty team table. -/
theorem c10_cole_max_paths_no_team_witness :
    teamOfResult (extract_table_data_wrapped pageColeWin "u") = [] ∧
    teamOfResult (extract_table_data_wrapped pageMaxWin "u") = [] ∧
    (wrangle_max pageMaxWin "u").2 = [] :=
  ⟨(c10_cole_max_paths_no_team pageColeWin "u").2.1 (by decide),
   (c10_cole_max_paths_no_team pageMaxWin "u").2.2 (by decide),
   (c10_cole_max_paths_no_team pageMaxWin "u").1⟩

end MeetResults
